import Mathlib

/-!
# Blackjack (blackJack.cpp): a shallow embedding of the game logic

The game logic of `src/blackJack.cpp` (scoring, the bankroll, the round flags,
the key handlers) is embedded as pure functions on an explicit `State` record
that holds the program's global variables.

Modelling conventions
* `int` values are `Int`.  The additions and subtractions on the bankroll and
  the bet go through `wrapInt` (two's complement, 32 bits); statements that
  depend on the arithmetic being exact carry an explicit range hypothesis.
  The accumulator of `getScore` is not wrapped: it is bounded by eleven times
  the number of cards, and the program's arrays hold `MAX_CARDS = 12` cards.
* `Card playerHand[MAX_CARDS]` is a list of length `MAX_CARDS` (`CardArray`)
  together with the separate counter, exactly as in the source; the cards of a
  hand are the first `count` slots.
* `drawCard()` reads the global random generator.  The handlers take the cards
  they draw from a stream `draws : Nat → Card`, `draws 0` being the first card
  drawn while the command is processed.
* The file `highscore.txt` is the field `highscoreFile` (its parsed content) and
  the log `fileWrites` of the values written to it, newest first.
* Rendering (`renderScene`, textures, `glutPostRedisplay`) has no effect on the
  game state and is left out.
-/

namespace Blackjack

/-! ## Cards and scoring -/

/-- Class `Card`: a value (1-13) and a suit (0-3), both `int`. -/
structure Card where
  value : Int
  suit : Int
deriving DecidableEq, Repr

/-- Constant `MAX_CARDS`. -/
def MAX_CARDS : Nat := 12

/-- Constant `NUM_SUITS`. -/
def NUM_SUITS : Nat := 4

/-- Function `drawCard`, from the two results `r1`, `r2` of `rand()`. -/
def drawCard (r1 r2 : Nat) : Card :=
  { value := ((r1 % 13 + 1 : Nat) : Int), suit := ((r2 % NUM_SUITS : Nat) : Int) }

/-- What `drawCard` can return: a value in 1..13 and a suit in 0..3. -/
def Card.valid (c : Card) : Prop :=
  1 ≤ c.value ∧ c.value ≤ 13 ∧ 0 ≤ c.suit ∧ c.suit < 4

instance (c : Card) : Decidable c.valid := by
  unfold Card.valid; infer_instance

/-- Function `cardValue`: face cards count 10, an Ace counts 11 to begin with. -/
def cardValue (val : Int) : Int :=
  if val > 10 then 10
  else if val = 1 then 11
  else val

/-- One iteration of the `for` loop of `getScore` on the pair `(score, aces)`. -/
def scoreStep (acc : Int × Nat) (c : Card) : Int × Nat :=
  (acc.1 + cardValue c.value, if c.value = 1 then acc.2 + 1 else acc.2)

/-- The loop `while (score > 21 && aces > 0) { score -= 10; aces--; }` of `getScore`. -/
def soften (score : Int) : Nat → Int
  | 0 => score
  | aces + 1 => if score > 21 then soften (score - 10) aces else score

/-- Function `getScore(hand, cardCount)`: the `for` loop over the slots
`hand[0]`, ..., `hand[cardCount - 1]`, then the softening loop. -/
def getScore (hand : List Card) (cardCount : Nat) : Int :=
  soften ((hand.take cardCount).foldl scoreStep (0, 0)).1
    ((hand.take cardCount).foldl scoreStep (0, 0)).2

/-! ## The specification's reading of a score (used to compare with `getScore`) -/

/-- Value of a card that is not counted as a soft Ace: 10/J/Q/K count 10, every
other card (an Ace included, as 1) its face value. -/
def faceValue (c : Card) : Int :=
  if c.value > 10 then 10 else c.value

/-- The total of a hand with every Ace counted as 1. -/
def hardTotal (hand : List Card) : Int :=
  (hand.map faceValue).sum

/-- Every total of a hand obtained by counting each Ace as either 1 or 11. -/
def achievableTotals : List Card → List Int
  | [] => [0]
  | c :: cs =>
    if c.value = 1 then
      (achievableTotals cs).map (fun t => t + 1) ++ (achievableTotals cs).map (fun t => t + 11)
    else
      (achievableTotals cs).map (fun t => t + faceValue c)

/-- The number of Aces of a hand. -/
def aceCount (hand : List Card) : Nat :=
  (hand.filter (fun c => c.value = 1)).length

/-- The total of a hand with every Ace counted as 11 (10/J/Q/K as 10, every
other card at face value). -/
def softTotal (hand : List Card) : Int :=
  (hand.map (fun c => if c.value = 1 then 11 else faceValue c)).sum

/-! ## Machine integers -/

/-- Smallest `int`. -/
def INT_MIN : Int := -2147483648

/-- Largest `int`. -/
def INT_MAX : Int := 2147483647

/-- Result of 32-bit two's complement arithmetic for the exact result `x`. -/
def wrapInt (x : Int) : Int :=
  (x + 2147483648) % 4294967296 - 2147483648

/-- The exact result `x` is representable as an `int`. -/
def InIntRange (x : Int) : Prop :=
  INT_MIN ≤ x ∧ x ≤ INT_MAX

instance (x : Int) : Decidable (InIntRange x) := by
  unfold InIntRange; infer_instance

/-! ## Game state -/

/-- A `Card[MAX_CARDS]` array. -/
abbrev CardArray : Type := { l : List Card // l.length = MAX_CARDS }

/-- The array assignment `a[i] = c`; a write outside the array leaves it alone. -/
def CardArray.store (a : CardArray) (i : Nat) (c : Card) : CardArray :=
  if i < MAX_CARDS then ⟨a.1.set i c, by rw [List.length_set]; exact a.2⟩ else a

/-- The cards of a hand: the first `count` slots of its array. -/
def handCards (a : CardArray) (count : Nat) : List Card :=
  a.1.take count

/-- An array of default-constructed cards (`Card()` has value 0 and suit 0). -/
def emptyCardArray : CardArray :=
  ⟨List.replicate MAX_CARDS { value := 0, suit := 0 }, by simp⟩

/-- The program's global variables, with the content of `highscore.txt`. -/
structure State where
  bankrupt : Bool
  highestMoney : Int
  playerHand : CardArray
  playerCardCount : Nat
  dealerHand : CardArray
  dealerCardCount : Nat
  playerMoney : Int
  currentBet : Int
  betConfirmed : Bool
  playerTurn : Bool
  gameOver : Bool
  gameMessage : String
  highscoreFile : Option Int
  fileWrites : List Int
deriving DecidableEq

/-- The globals after the first lines of `main`: `highestMoney` is read from the
file, or is 1000 when the file holds no readable number. -/
def main (file : Option Int) : State :=
  { bankrupt := false
    highestMoney := file.getD 1000
    playerHand := emptyCardArray
    playerCardCount := 0
    dealerHand := emptyCardArray
    dealerCardCount := 0
    playerMoney := 1000
    currentBet := 100
    betConfirmed := false
    playerTurn := true
    gameOver := false
    gameMessage := "Set your bet: Use Up/Down arrows, Enter to deal"
    highscoreFile := file
    fileWrites := [] }

/-! ## Game logic -/

/-- Function `updateHighScore`. -/
def updateHighScore (s : State) : State :=
  if s.playerMoney > s.highestMoney then
    { s with
      highestMoney := s.playerMoney
      highscoreFile := some s.playerMoney
      fileWrites := s.playerMoney :: s.fileWrites }
  else s

/-- The first `if` chain of `evaluateResult`: win, push or loss. -/
def settleBet (s : State) : State :=
  if getScore s.dealerHand.1 s.dealerCardCount > 21
      ∨ getScore s.playerHand.1 s.playerCardCount > getScore s.dealerHand.1 s.dealerCardCount then
    { s with
      playerMoney := wrapInt (s.playerMoney + s.currentBet)
      gameMessage := "You win! Press R to continue." }
  else if getScore s.dealerHand.1 s.dealerCardCount = getScore s.playerHand.1 s.playerCardCount then
    { s with gameMessage := "Push (Tie). Press R to continue." }
  else
    { s with
      playerMoney := wrapInt (s.playerMoney - s.currentBet)
      gameMessage := "Dealer wins. Press R to continue." }

/-- The bankruptcy check of `evaluateResult`. -/
def checkBankrupt (s : State) : State :=
  if s.playerMoney ≤ 0 then
    { s with
      playerMoney := 0
      bankrupt := true
      gameMessage := "Game Over! You are bankrupt. Press R to restart."
      currentBet := 100 }
  else s

/-- Function `evaluateResult`. -/
def evaluateResult (s : State) : State :=
  updateHighScore { checkBankrupt (settleBet s) with gameOver := true }

/-- The bankruptcy check in the bust branch of `playerHit`. -/
def checkBustBankrupt (s : State) : State :=
  if s.playerMoney ≤ 0 then
    { s with
      playerMoney := 0
      bankrupt := true
      gameMessage := "Bust! You are bankrupt. Press R to restart." }
  else
    { s with gameMessage := "Bust! You lose. Press R to continue." }

/-- The bust branch of `playerHit`, entered when the new score exceeds 21. -/
def playerBust (s : State) : State :=
  updateHighScore
    { checkBustBankrupt { s with playerMoney := wrapInt (s.playerMoney - s.currentBet) } with
      gameOver := true }

/-- The statement `playerHand[playerCardCount++] = drawCard()`. -/
def playerTakes (s : State) (c : Card) : State :=
  { s with
    playerHand := s.playerHand.store s.playerCardCount c
    playerCardCount := s.playerCardCount + 1 }

/-- The statement `dealerHand[dealerCardCount++] = drawCard()`. -/
def dealerTakes (s : State) (c : Card) : State :=
  { s with
    dealerHand := s.dealerHand.store s.dealerCardCount c
    dealerCardCount := s.dealerCardCount + 1 }

/-- Function `playerHit`. -/
def playerHit (s : State) (draws : Nat → Card) : State :=
  if !s.playerTurn || s.gameOver then s
  else if s.playerCardCount ≥ MAX_CARDS then s
  else if getScore (playerTakes s (draws 0)).playerHand.1 (playerTakes s (draws 0)).playerCardCount > 21 then
    playerBust (playerTakes s (draws 0))
  else playerTakes s (draws 0)

/-- The `while` loop of `dealerTurn`.  The first argument is the loop's
variant `MAX_CARDS - dealerCardCount`: the body runs only while
`dealerCardCount < MAX_CARDS`, and each run adds one card. -/
def dealerLoop : Nat → State → (Nat → Card) → State
  | 0, s, _ => s
  | n + 1, s, draws =>
    if getScore s.dealerHand.1 s.dealerCardCount < 17 then
      if s.dealerCardCount ≥ MAX_CARDS then s
      else dealerLoop n (dealerTakes s (draws 0)) (fun i => draws (i + 1))
    else s

/-- The dealer-play loop started in state `s`. -/
def dealerPlay (s : State) (draws : Nat → Card) : State :=
  dealerLoop (MAX_CARDS - s.dealerCardCount) s draws

/-- Function `dealerTurn`. -/
def dealerTurn (s : State) (draws : Nat → Card) : State :=
  evaluateResult (dealerPlay s draws)

/-- Function `playerStand`. -/
def playerStand (s : State) (draws : Nat → Card) : State :=
  if !s.playerTurn || s.gameOver then s
  else dealerTurn { s with playerTurn := false } draws

/-- Function `startGame`. -/
def startGame (s : State) (draws : Nat → Card) : State :=
  if s.betConfirmed || decide (s.currentBet > s.playerMoney) || s.bankrupt then s
  else
    { s with
      playerHand := (s.playerHand.store 0 (draws 0)).store 1 (draws 1)
      playerCardCount := 2
      dealerHand := (s.dealerHand.store 0 (draws 2)).store 1 (draws 3)
      dealerCardCount := 2
      betConfirmed := true
      playerTurn := true
      gameOver := false
      gameMessage := "Hit (H) or Stand (S)" }

/-! ## Input handlers -/

/-- Key code of Enter. -/
def KEY_ENTER : Nat := 13

/-- Key code of Escape. -/
def KEY_ESC : Nat := 27

/-- Key codes of the letters the game reads: `h H s S r R`. -/
def KEY_h : Nat := 104

/-- Key code of `H`. -/
def KEY_H : Nat := 72

/-- Key code of `s`. -/
def KEY_s : Nat := 115

/-- Key code of `S`. -/
def KEY_S : Nat := 83

/-- Key code of `r`. -/
def KEY_r : Nat := 114

/-- Key code of `R`. -/
def KEY_R : Nat := 82

/-- Constant `GLUT_KEY_UP` of the freeglut header. -/
def GLUT_KEY_UP : Int := 101

/-- Constant `GLUT_KEY_DOWN` of the freeglut header. -/
def GLUT_KEY_DOWN : Int := 103

/-- The `R` branch of `keyPress`. -/
def continueRound (s : State) : State :=
  { (if s.bankrupt then { s with playerMoney := 1000, bankrupt := false } else s) with
    betConfirmed := false
    gameOver := false
    gameMessage := "Set your bet: Use Up/Down arrows, Enter to deal" }

/-- Function `keyPress` for a key other than Escape. -/
def keyPressGame (s : State) (key : Nat) (draws : Nat → Card) : State :=
  if !s.betConfirmed && key == KEY_ENTER then startGame s draws
  else if s.gameOver && (key == KEY_r || key == KEY_R) then continueRound s
  else if key == KEY_h || key == KEY_H then playerHit s draws
  else if key == KEY_s || key == KEY_S then playerStand s draws
  else s

/-- Function `keyPress`: Escape ends the process (`none`). -/
def keyPress (s : State) (key : Nat) (draws : Nat → Card) : Option State :=
  if key = KEY_ESC then none else some (keyPressGame s key draws)

/-- Function `specialKeyPress`. -/
def specialKeyPress (s : State) (key : Int) : State :=
  if !s.betConfirmed then
    if key = GLUT_KEY_UP ∧ wrapInt (s.currentBet + 10) ≤ s.playerMoney then
      { s with currentBet := wrapInt (s.currentBet + 10) }
    else if key = GLUT_KEY_DOWN ∧ wrapInt (s.currentBet - 10) ≥ 10 then
      { s with currentBet := wrapInt (s.currentBet - 10) }
    else s
  else s

/-! ## Commands, round states, reachability -/

/-- The intents of the command surface (Quit, which ends the process, apart). -/
inductive Command where
  | Deal
  | RaiseBet
  | LowerBet
  | Hit
  | Stand
  | Continue
deriving DecidableEq, Repr

/-- Processing of one command: the key handler that the input layer calls. -/
def step (s : State) (cmd : Command) (draws : Nat → Card) : State :=
  match cmd with
  | .Deal => keyPressGame s KEY_ENTER draws
  | .RaiseBet => specialKeyPress s GLUT_KEY_UP
  | .LowerBet => specialKeyPress s GLUT_KEY_DOWN
  | .Hit => keyPressGame s KEY_h draws
  | .Stand => keyPressGame s KEY_s draws
  | .Continue => keyPressGame s KEY_r draws

/-- The round states of the specification. -/
inductive RoundState where
  | AwaitingBet
  | PlayerTurn
  | DealerTurn
  | RoundOver
deriving DecidableEq, Repr

/-- The round state that the flags stand for, as `renderScene` and `keyPress`
read them: no confirmed bet, else round over, else the player's or the
dealer's turn. -/
def roundState (s : State) : RoundState :=
  if !s.betConfirmed then .AwaitingBet
  else if s.gameOver then .RoundOver
  else if s.playerTurn then .PlayerTurn
  else .DealerTurn

/-- A stream of drawn cards that starts with `cs` and goes on with tens. -/
def drawsOf (cs : List Card) : Nat → Card :=
  fun i => cs.getD i { value := 10, suit := 0 }

/-- Processing of a sequence of commands, each with the cards drawn for it. -/
def run (s : State) (events : List (Command × List Card)) : State :=
  events.foldl (fun t e => step t e.1 (drawsOf e.2)) s

/-- The states the program can be in between two commands. -/
inductive Reachable : State → Prop
  | start (file : Option Int) : Reachable (main file)
  | next {s : State} (cmd : Command) (draws : Nat → Card) :
      Reachable s → (∀ i, (draws i).valid) → Reachable (step s cmd draws)

/-- The states reached from the state `init` by commands with drawn cards. -/
inductive ReachableFrom (init : State) : State → Prop
  | start : ReachableFrom init init
  | next {s : State} (cmd : Command) (draws : Nat → Card) :
      ReachableFrom init s → (∀ i, (draws i).valid) → ReachableFrom init (step s cmd draws)

/-- The states of the round that begins in the dealt state `d`: those reached
from `d` by Hit and Stand commands only, with any drawn cards. -/
inductive InRound (d : State) : State → Prop
  | dealt : InRound d d
  | hit {s : State} (draws : Nat → Card) : InRound d s → InRound d (step s .Hit draws)
  | stand {s : State} (draws : Nat → Card) : InRound d s → InRound d (step s .Stand draws)

/-- The high-score store of a state: the value in memory, the log of the writes
to the file, and the content of the file. -/
def highScoreStore (s : State) : Int × List Int × Option Int :=
  (s.highestMoney, s.fileWrites, s.highscoreFile)

/-! ## Concrete plays used as witnesses and counterexamples -/

/-- The diamond of value `v`. -/
def diamond (v : Int) : Card :=
  { value := v, suit := 0 }

/-- Deal of 10, 5 to the player and 10, 8 to the dealer in a fresh session. -/
def dealtFifteen : State :=
  run (main none) [(.Deal, [diamond 10, diamond 5, diamond 10, diamond 8])]

/-- Deal of 10, 9 to the player and 10, 8 to the dealer in a fresh session. -/
def dealtNineteen : State :=
  run (main none) [(.Deal, [diamond 10, diamond 9, diamond 10, diamond 8])]

/-- Deal of 10, 10 to the player and 10, 10 to the dealer in a fresh session. -/
def dealtTwenties : State :=
  run (main none) [(.Deal, [diamond 10, diamond 10, diamond 10, diamond 10])]

/-- The player is dealt 10, 5, hits a King and busts, then presses R: the busted
hand is still in the arrays while the next bet is awaited. -/
def bustedThenContinued : State :=
  run (main none)
    [(.Deal, [diamond 10, diamond 5, diamond 10, diamond 8]), (.Hit, [diamond 13]),
     (.Continue, [])]

/-- The bet is raised fifty times to 600, the round is lost on 19 against 20,
and R is pressed: the bet is 600 and the bankroll 400. -/
def lostSixHundred : State :=
  run (main none)
    (List.replicate 50 (.RaiseBet, []) ++
      [(.Deal, [diamond 10, diamond 9, diamond 10, diamond 10]), (.Stand, []), (.Continue, [])])

/-- The bet is raised ninety times to 1000 (the whole bankroll); the player is
dealt 10, 6 and the dealer 10, 7. -/
def allInDealt : State :=
  run (main none)
    (List.replicate 90 (.RaiseBet, []) ++
      [(.Deal, [diamond 10, diamond 6, diamond 10, diamond 7])])

/-- After `allInDealt` the player hits a King and busts. -/
def bustWithAllIn : State :=
  run allInDealt [(.Hit, [diamond 13])]

/-- After `allInDealt` the player stands on 16 against the dealer's 17 and loses. -/
def standLossWithAllIn : State :=
  run allInDealt [(.Stand, [])]

/-- The player is dealt two Aces and hits ten more Aces: twelve cards, score 12,
the array is full. -/
def twelveAces : State :=
  run (main none)
    ((.Deal, [diamond 1, diamond 1, diamond 10, diamond 8]) ::
      List.replicate 10 (.Hit, [diamond 1]))

/-- The bet is raised once to 110 and the round is lost on 19 against 20. -/
def lostRound : State :=
  run (main none)
    [(.RaiseBet, []), (.Deal, [diamond 10, diamond 9, diamond 10, diamond 10]), (.Stand, [])]


/-! ## Helper lemmas -/

theorem wrapInt_eq_self (x : Int) (h : InIntRange x) : wrapInt x = x := by
  unfold InIntRange INT_MIN INT_MAX at h
  unfold wrapInt
  omega

theorem drawCard_valid (r1 r2 : Nat) : (drawCard r1 r2).valid := by
  unfold drawCard Card.valid NUM_SUITS
  simp only
  omega

theorem drawsOf_valid (cs : List Card) (h : ∀ c ∈ cs, c.valid) (i : Nat) :
    (drawsOf cs i).valid := by
  unfold drawsOf
  by_cases hi : i < cs.length
  · rw [List.getD_eq_getElem cs _ hi]
    exact h _ (List.getElem_mem hi)
  · rw [List.getD_eq_default cs _ (by omega)]
    decide

theorem reachable_run (s : State) (events : List (Command × List Card))
    (hs : Reachable s) (hv : ∀ e ∈ events, ∀ c ∈ e.2, c.valid) :
    Reachable (run s events) := by
  induction events generalizing s with
  | nil => exact hs
  | cons e es ih =>
    have h1 : Reachable (step s e.1 (drawsOf e.2)) :=
      Reachable.next e.1 (drawsOf e.2) hs (drawsOf_valid e.2 (hv e (List.mem_cons_self _ _)))
    exact ih _ h1 (fun e2 he2 => hv e2 (List.mem_cons_of_mem _ he2))

theorem updateHighScore_playerMoney (s : State) :
    (updateHighScore s).playerMoney = s.playerMoney := by
  unfold updateHighScore; split_ifs <;> rfl

theorem updateHighScore_bankrupt (s : State) :
    (updateHighScore s).bankrupt = s.bankrupt := by
  unfold updateHighScore; split_ifs <;> rfl

theorem updateHighScore_gameOver (s : State) :
    (updateHighScore s).gameOver = s.gameOver := by
  unfold updateHighScore; split_ifs <;> rfl

theorem evaluateResult_playerMoney (s : State) :
    (evaluateResult s).playerMoney = (checkBankrupt (settleBet s)).playerMoney := by
  simp [evaluateResult, updateHighScore_playerMoney]


theorem settleBet_playerMoney (s : State) :
    (settleBet s).playerMoney =
      if getScore s.dealerHand.1 s.dealerCardCount > 21
          ∨ getScore s.playerHand.1 s.playerCardCount > getScore s.dealerHand.1 s.dealerCardCount then
        wrapInt (s.playerMoney + s.currentBet)
      else if getScore s.dealerHand.1 s.dealerCardCount = getScore s.playerHand.1 s.playerCardCount then
        s.playerMoney
      else wrapInt (s.playerMoney - s.currentBet) := by
  unfold settleBet; split_ifs <;> rfl

theorem checkBankrupt_playerMoney (s : State) :
    (checkBankrupt s).playerMoney = if s.playerMoney ≤ 0 then 0 else s.playerMoney := by
  unfold checkBankrupt; split_ifs <;> rfl

theorem checkBankrupt_bankrupt (s : State) :
    (checkBankrupt s).bankrupt = if s.playerMoney ≤ 0 then true else s.bankrupt := by
  unfold checkBankrupt; split_ifs <;> rfl


/-! ## Scoring (C1) -/

theorem cardValue_eq (c : Card) :
    cardValue c.value = faceValue c + (if c.value = 1 then 10 else 0) := by
  unfold cardValue faceValue
  split_ifs <;> omega

theorem hardTotal_cons (c : Card) (cs : List Card) :
    hardTotal (c :: cs) = faceValue c + hardTotal cs := by
  simp [hardTotal]

theorem aceCount_cons (c : Card) (cs : List Card) :
    aceCount (c :: cs) = (if c.value = 1 then 1 else 0) + aceCount cs := by
  unfold aceCount
  by_cases h : c.value = 1
  · simp [List.filter_cons, h]; omega
  · simp [List.filter_cons, h]

theorem foldl_scoreStep (hand : List Card) (acc : Int × Nat) :
    hand.foldl scoreStep acc
      = (acc.1 + hardTotal hand + 10 * (aceCount hand : Int), acc.2 + aceCount hand) := by
  induction hand generalizing acc with
  | nil => simp [hardTotal, aceCount]
  | cons c cs ih =>
    rw [List.foldl_cons, ih, hardTotal_cons, aceCount_cons]
    simp only [scoreStep, cardValue_eq]
    by_cases h : c.value = 1
    · simp only [h, if_true, Prod.mk.injEq]
      constructor
      · push_cast; ring
      · omega
    · simp only [h, if_false, Prod.mk.injEq]
      constructor
      · push_cast; ring
      · omega

theorem getScore_eq (hand : List Card) :
    getScore hand hand.length
      = soften (hardTotal hand + 10 * (aceCount hand : Int)) (aceCount hand) := by
  simp [getScore, foldl_scoreStep]

theorem soften_spec (h : Int) (a : Nat) :
    ∃ j : Nat, j ≤ a ∧ soften (h + 10 * (a : Int)) a = h + 10 * (j : Int)
      ∧ (h + 10 * (j : Int) ≤ 21 ∨ j = 0)
      ∧ ∀ k : Nat, k ≤ a → h + 10 * (k : Int) ≤ 21 → k ≤ j := by
  induction a with
  | zero => exact ⟨0, le_refl _, by simp [soften], Or.inr rfl, fun k hk _ => hk⟩
  | succ a ih =>
    by_cases hgt : h + 10 * ((a + 1 : Nat) : Int) > 21
    · obtain ⟨j, hja, hj, hle, hmax⟩ := ih
      refine ⟨j, by omega, ?_, hle, ?_⟩
      · rw [soften, if_pos hgt]
        have : h + 10 * ((a + 1 : Nat) : Int) - 10 = h + 10 * (a : Int) := by push_cast; ring
        rw [this, hj]
      · intro k hk hk21
        have : k ≤ a := by
          by_contra hc
          have : k = a + 1 := by omega
          subst this
          omega
        exact hmax k this hk21
    · refine ⟨a + 1, le_refl _, ?_, Or.inl (by omega), fun k hk _ => hk⟩
      rw [soften, if_neg hgt]

theorem mem_achievableTotals (hand : List Card) (t : Int) :
    t ∈ achievableTotals hand ↔ ∃ k : Nat, k ≤ aceCount hand ∧ t = hardTotal hand + 10 * (k : Int) := by
  induction hand generalizing t with
  | nil => simp [achievableTotals, hardTotal, aceCount]
  | cons c cs ih =>
    rw [hardTotal_cons, aceCount_cons]
    by_cases h : c.value = 1
    · have hf : faceValue c = 1 := by simp [faceValue, h]
      simp only [achievableTotals, h, if_true, List.mem_append, List.mem_map, hf]
      constructor
      · rintro (⟨u, hu, rfl⟩ | ⟨u, hu, rfl⟩)
        · obtain ⟨k, hk, rfl⟩ := (ih u).1 hu
          exact ⟨k, by omega, by ring⟩
        · obtain ⟨k, hk, rfl⟩ := (ih u).1 hu
          exact ⟨k + 1, by omega, by push_cast; ring⟩
      · rintro ⟨k, hk, rfl⟩
        by_cases hk2 : k ≤ aceCount cs
        · exact Or.inl ⟨hardTotal cs + 10 * (k : Int), (ih _).2 ⟨k, hk2, rfl⟩, by ring⟩
        · refine Or.inr ⟨hardTotal cs + 10 * ((k - 1 : Nat) : Int), (ih _).2 ⟨k - 1, by omega, rfl⟩, ?_⟩
          have : ((k - 1 : Nat) : Int) = (k : Int) - 1 := by omega
          rw [this]; ring
    · simp only [achievableTotals, h, if_false, List.mem_map, zero_add]
      constructor
      · rintro ⟨u, hu, rfl⟩
        obtain ⟨k, hk, rfl⟩ := (ih u).1 hu
        exact ⟨k, hk, by ring⟩
      · rintro ⟨k, hk, rfl⟩
        exact ⟨hardTotal cs + 10 * (k : Int), (ih _).2 ⟨k, hk, rfl⟩, by ring⟩

/-- Claim C1.  For every hand, `getScore` returns a total obtained by counting
each Ace as 1 or 11; when some such total is at most 21 the result is at most
21 and no smaller than any such total that is at most 21; when every such
total exceeds 21 the result is the total with every Ace counted as 1.  The
hand Ace, Ace, 8 scores 20. -/
theorem getScore_is_best_total (hand : List Card) :
    getScore hand hand.length ∈ achievableTotals hand
    ∧ ((∃ t ∈ achievableTotals hand, t ≤ 21) →
        getScore hand hand.length ≤ 21
        ∧ ∀ t ∈ achievableTotals hand, t ≤ 21 → t ≤ getScore hand hand.length)
    ∧ ((∀ t ∈ achievableTotals hand, 21 < t) → getScore hand hand.length = hardTotal hand)
    ∧ getScore [{ value := 1, suit := 0 }, { value := 1, suit := 1 }, { value := 8, suit := 2 }] 3 = 20 := by
  obtain ⟨j, hja, hj, hle, hmax⟩ := soften_spec (hardTotal hand) (aceCount hand)
  rw [getScore_eq, hj]
  have hmem : hardTotal hand + 10 * (j : Int) ∈ achievableTotals hand :=
    (mem_achievableTotals hand _).2 ⟨j, hja, rfl⟩
  refine ⟨hmem, ?_, ?_, by decide⟩
  · rintro ⟨t, ht, ht21⟩
    obtain ⟨k, hk, rfl⟩ := (mem_achievableTotals hand t).1 ht
    have hkj := hmax k hk ht21
    refine ⟨by rcases hle with h1 | h1 <;> omega, ?_⟩
    intro u hu hu21
    obtain ⟨m, hm, rfl⟩ := (mem_achievableTotals hand u).1 hu
    have := hmax m hm hu21
    omega
  · intro hall
    have := hall _ hmem
    rcases hle with h1 | h1
    · omega
    · simp [h1]

/-! ## Range of the score -/

theorem cardValue_bounds (c : Card) (hv : c.valid) :
    2 ≤ cardValue c.value ∧ cardValue c.value ≤ 11 := by
  obtain ⟨h1, h2, _, _⟩ := hv
  unfold cardValue
  split_ifs <;> omega

theorem scoreLoop_bounds (hand : List Card) (hv : ∀ c ∈ hand, c.valid) (acc : Int × Nat) :
    acc.1 ≤ (hand.foldl scoreStep acc).1
    ∧ (hand.foldl scoreStep acc).1 ≤ acc.1 + 11 * (hand.length : Int) := by
  induction hand generalizing acc with
  | nil => simp
  | cons c cs ih =>
    have hc := cardValue_bounds c (hv c (List.mem_cons_self _ _))
    have := ih (fun d hd => hv d (List.mem_cons_of_mem _ hd)) (scoreStep acc c)
    simp only [List.foldl_cons, List.length_cons]
    simp only [scoreStep] at this ⊢
    push_cast
    omega

theorem soften_bounds (score : Int) (aces : Nat) (h : 0 ≤ score) :
    0 ≤ soften score aces ∧ soften score aces ≤ score := by
  induction aces generalizing score with
  | zero => simp [soften, h]
  | succ a ih =>
    unfold soften
    split_ifs with hgt
    · have := ih (score - 10) (by omega)
      omega
    · omega

/-- The accumulator of `getScore` stays between 0 and eleven times the number of
cards read, so for the program's arrays of `MAX_CARDS` cards it never leaves
the range of `int`. -/
theorem getScore_bounds (hand : List Card) (cardCount : Nat) (hv : ∀ c ∈ hand, c.valid) :
    0 ≤ getScore hand cardCount ∧ getScore hand cardCount ≤ 11 * (cardCount : Int) := by
  have hb := scoreLoop_bounds (hand.take cardCount)
    (fun c hc => hv c (List.mem_of_mem_take hc)) (0, 0)
  have hlen : ((hand.take cardCount).length : Int) ≤ (cardCount : Int) := by
    have := List.length_take_le cardCount hand
    omega
  have hs := soften_bounds ((hand.take cardCount).foldl scoreStep (0, 0)).1
    ((hand.take cardCount).foldl scoreStep (0, 0)).2 hb.1
  unfold getScore
  simp only at hb
  omega

/-! ## Outcome evaluation (C2) -/

/-- Claim C2, counterexample.  In the reachable state `bustedThenContinued`
the player's hand scores 25 against the dealer's 18 with bankroll 900 and bet
100; `evaluateResult`, and the Stand command that reaches it, pay the bet
(bankroll 1000) although the player's score exceeds 21. -/
theorem evaluateResult_pays_busted_player :
    Reachable bustedThenContinued
    ∧ getScore bustedThenContinued.playerHand.1 bustedThenContinued.playerCardCount = 25
    ∧ getScore bustedThenContinued.dealerHand.1 bustedThenContinued.dealerCardCount = 18
    ∧ bustedThenContinued.playerMoney = 900
    ∧ bustedThenContinued.currentBet = 100
    ∧ (evaluateResult bustedThenContinued).playerMoney = 1000
    ∧ (evaluateResult bustedThenContinued).playerMoney
        ≠ max (bustedThenContinued.playerMoney - bustedThenContinued.currentBet) 0
    ∧ (step bustedThenContinued .Stand (drawsOf [])).playerMoney = 1000 := by
  refine ⟨reachable_run _ _ (Reachable.start none) (by decide), ?_⟩
  decide


/-- Claim C2, amended.  For a player hand that scores at most 21, a bankroll
and a bet that are not negative and whose sum is an `int`, `evaluateResult`
leaves the bankroll at: bankroll + bet when the dealer's score exceeds 21,
else bankroll + bet when the player's score is higher, the bankroll itself
when the scores are equal, and bankroll - bet clamped at 0 when the player's
score is lower. -/
theorem evaluateResult_rules (s : State)
    (hplayer : getScore s.playerHand.1 s.playerCardCount ≤ 21)
    (hmoney : 0 ≤ s.playerMoney) (hbet : 0 ≤ s.currentBet)
    (hrange : s.playerMoney + s.currentBet ≤ INT_MAX) :
    (evaluateResult s).playerMoney =
      if getScore s.dealerHand.1 s.dealerCardCount > 21 then s.playerMoney + s.currentBet
      else if getScore s.playerHand.1 s.playerCardCount > getScore s.dealerHand.1 s.dealerCardCount then
        s.playerMoney + s.currentBet
      else if getScore s.playerHand.1 s.playerCardCount = getScore s.dealerHand.1 s.dealerCardCount then
        s.playerMoney
      else max (s.playerMoney - s.currentBet) 0 := by
  have hadd : wrapInt (s.playerMoney + s.currentBet) = s.playerMoney + s.currentBet :=
    wrapInt_eq_self _ ⟨by unfold INT_MIN; omega, hrange⟩
  have hsub : wrapInt (s.playerMoney - s.currentBet) = s.playerMoney - s.currentBet :=
    wrapInt_eq_self _ ⟨by unfold INT_MIN; unfold INT_MAX at hrange; omega, by omega⟩
  rw [evaluateResult_playerMoney, checkBankrupt_playerMoney, settleBet_playerMoney, hadd, hsub]
  split_ifs <;> omega

/-- Claim C2, witness.  Bankroll 1000, bet 100: 19 against the dealer's 18
gives 1100, and 20 against 20 leaves 1000. -/
theorem evaluateResult_rules_witness :
    getScore dealtNineteen.playerHand.1 dealtNineteen.playerCardCount = 19
    ∧ getScore dealtNineteen.dealerHand.1 dealtNineteen.dealerCardCount = 18
    ∧ getScore dealtTwenties.playerHand.1 dealtTwenties.playerCardCount = 20
    ∧ getScore dealtTwenties.dealerHand.1 dealtTwenties.dealerCardCount = 20
    ∧ (evaluateResult dealtNineteen).playerMoney = 1100
    ∧ (evaluateResult dealtTwenties).playerMoney = 1000 :=
  ⟨by decide, by decide, by decide, by decide,
   (evaluateResult_rules dealtNineteen (by decide) (by decide) (by decide) (by decide)).trans
      (by decide),
   (evaluateResult_rules dealtTwenties (by decide) (by decide) (by decide) (by decide)).trans
      (by decide)⟩

/-! ## Ignored commands (C3) and bet adjustment (C4) -/

theorem reachable_allInDealt : Reachable allInDealt :=
  reachable_run _ _ (Reachable.start none) (by decide)

/-- Claim C3, the code at the failing input.  The initial state awaits a bet, yet
Stand makes the dealer draw 10 and 7, settles the round against the player's
empty hand and takes the bet (bankroll 900, round over), and Hit puts a card
into the player's hand: neither command is ignored. -/
theorem hit_and_stand_act_while_awaiting_bet :
    Reachable (main none)
    ∧ roundState (main none) = .AwaitingBet
    ∧ step (main none) .Stand (drawsOf [diamond 10, diamond 7]) ≠ main none
    ∧ (step (main none) .Stand (drawsOf [diamond 10, diamond 7])).playerMoney = 900
    ∧ (step (main none) .Stand (drawsOf [diamond 10, diamond 7])).dealerCardCount = 2
    ∧ (step (main none) .Stand (drawsOf [diamond 10, diamond 7])).gameOver = true
    ∧ step (main none) .Hit (drawsOf [diamond 13]) ≠ main none
    ∧ (step (main none) .Hit (drawsOf [diamond 13])).playerCardCount = 1 := by
  refine ⟨Reachable.start none, ?_⟩
  decide

/-- The commands that the guards of the handlers do ignore: Deal, RaiseBet and
LowerBet once the bet is confirmed, Hit and Stand once the round is over,
Continue while the round is not over. -/
theorem guarded_commands_are_ignored (s : State) (draws : Nat → Card) :
    (s.betConfirmed = true →
      step s .Deal draws = s ∧ step s .RaiseBet draws = s ∧ step s .LowerBet draws = s)
    ∧ (s.gameOver = true → step s .Hit draws = s ∧ step s .Stand draws = s)
    ∧ (s.gameOver = false → step s .Continue draws = s) := by
  refine ⟨fun h => ?_, fun h => ?_, fun h => ?_⟩
  · simp [step, keyPressGame, specialKeyPress, h, KEY_ENTER, KEY_r, KEY_R, KEY_h, KEY_H, KEY_s, KEY_S]
  · simp [step, keyPressGame, playerHit, playerStand, h, KEY_ENTER, KEY_r, KEY_R, KEY_h, KEY_H,
      KEY_s, KEY_S]
  · simp [step, keyPressGame, h, KEY_ENTER, KEY_r, KEY_R, KEY_h, KEY_H, KEY_s, KEY_S]

/-- Claim C4, counterexample.  In the reachable state `lostSixHundred` a bet is
awaited with bet 600 and bankroll 400; RaiseBet leaves bet 600 and LowerBet
gives 590, both above the bankroll. -/
theorem bet_adjustment_above_bankroll :
    Reachable lostSixHundred
    ∧ roundState lostSixHundred = .AwaitingBet
    ∧ (step lostSixHundred .RaiseBet (drawsOf [])).currentBet = 600
    ∧ (step lostSixHundred .RaiseBet (drawsOf [])).playerMoney = 400
    ∧ ¬ ((step lostSixHundred .RaiseBet (drawsOf [])).currentBet
          ≤ (step lostSixHundred .RaiseBet (drawsOf [])).playerMoney)
    ∧ (step lostSixHundred .LowerBet (drawsOf [])).currentBet = 590
    ∧ ¬ ((step lostSixHundred .LowerBet (drawsOf [])).currentBet
          ≤ (step lostSixHundred .LowerBet (drawsOf [])).playerMoney) := by
  refine ⟨reachable_run _ _ (Reachable.start none) (by decide), ?_⟩
  set_option maxRecDepth 100000 in decide

theorem specialKeyPress_playerMoney (s : State) (key : Int) :
    (specialKeyPress s key).playerMoney = s.playerMoney := by
  unfold specialKeyPress; split_ifs <;> rfl

theorem specialKeyPress_currentBet (s : State) (key : Int) :
    (specialKeyPress s key).currentBet =
      if s.betConfirmed = false then
        if key = GLUT_KEY_UP ∧ wrapInt (s.currentBet + 10) ≤ s.playerMoney then
          wrapInt (s.currentBet + 10)
        else if key = GLUT_KEY_DOWN ∧ wrapInt (s.currentBet - 10) ≥ 10 then
          wrapInt (s.currentBet - 10)
        else s.currentBet
      else s.currentBet := by
  unfold specialKeyPress
  cases h : s.betConfirmed
  · simp only [h, Bool.not_false, if_true]
    split_ifs <;> rfl
  · simp [h]

/-- Claim C4, amended.  In a state with `10 <= bet` (and `bet + 10` an `int`), a
RaiseBet or LowerBet leaves `10 <= bet` and the bankroll unchanged; it leaves
`bet <= bankroll` when that held before the command, and when the bet was
above the bankroll it does not raise the bet. -/
theorem bet_adjustment_bounds (s : State) (cmd : Command) (draws : Nat → Card)
    (hcmd : cmd = .RaiseBet ∨ cmd = .LowerBet)
    (hmin : 10 ≤ s.currentBet) (hrange : s.currentBet + 10 ≤ INT_MAX) :
    10 ≤ (step s cmd draws).currentBet
    ∧ (step s cmd draws).playerMoney = s.playerMoney
    ∧ (s.currentBet ≤ s.playerMoney →
        (step s cmd draws).currentBet ≤ (step s cmd draws).playerMoney)
    ∧ (s.playerMoney < s.currentBet → (step s cmd draws).currentBet ≤ s.currentBet) := by
  have hadd : wrapInt (s.currentBet + 10) = s.currentBet + 10 :=
    wrapInt_eq_self _ ⟨by unfold INT_MIN; omega, hrange⟩
  have hsub : wrapInt (s.currentBet - 10) = s.currentBet - 10 :=
    wrapInt_eq_self _ ⟨by unfold INT_MIN; omega, by omega⟩
  rcases hcmd with rfl | rfl
  · simp only [step, specialKeyPress_playerMoney, specialKeyPress_currentBet, hadd, hsub]
    refine ⟨?_, trivial, ?_, ?_⟩ <;> split_ifs <;> omega
  · simp only [step, specialKeyPress_playerMoney, specialKeyPress_currentBet, hadd, hsub]
    refine ⟨?_, trivial, ?_, ?_⟩ <;> split_ifs <;> omega

/-- Claim C4, witness.  In the initial state (bet 100, bankroll 1000) RaiseBet
gives bet 110, between 10 and the bankroll. -/
theorem bet_adjustment_bounds_witness :
    (10 : Int) ≤ (main none).currentBet
    ∧ (main none).currentBet ≤ (main none).playerMoney
    ∧ (step (main none) .RaiseBet (drawsOf [])).currentBet = 110
    ∧ 10 ≤ (step (main none) .RaiseBet (drawsOf [])).currentBet
    ∧ (step (main none) .RaiseBet (drawsOf [])).currentBet
        ≤ (step (main none) .RaiseBet (drawsOf [])).playerMoney :=
  ⟨by decide, by decide, by decide,
   (bet_adjustment_bounds (main none) .RaiseBet (drawsOf []) (Or.inl rfl) (by decide)
      (by decide)).1,
   (bet_adjustment_bounds (main none) .RaiseBet (drawsOf []) (Or.inl rfl) (by decide)
      (by decide)).2.2.1 (by decide)⟩

/-! ## Commands as handler calls; the end of a round (C5) -/

theorem step_hit (s : State) (draws : Nat → Card) : step s .Hit draws = playerHit s draws := by
  simp [step, keyPressGame, KEY_ENTER, KEY_r, KEY_R, KEY_h, KEY_H, KEY_s, KEY_S]

theorem step_stand (s : State) (draws : Nat → Card) :
    step s .Stand draws = playerStand s draws := by
  simp [step, keyPressGame, KEY_ENTER, KEY_r, KEY_R, KEY_h, KEY_H, KEY_s, KEY_S]

theorem step_deal (s : State) (draws : Nat → Card) : step s .Deal draws = startGame s draws := by
  cases h : s.betConfirmed <;>
    simp [step, keyPressGame, startGame, h, KEY_ENTER, KEY_r, KEY_R, KEY_h, KEY_H, KEY_s, KEY_S]

theorem step_continue (s : State) (draws : Nat → Card) :
    step s .Continue draws = if s.gameOver then continueRound s else s := by
  cases h : s.gameOver <;>
    simp [step, keyPressGame, h, KEY_ENTER, KEY_r, KEY_R, KEY_h, KEY_H, KEY_s, KEY_S]

theorem keyPressGame_capitals (s : State) (draws : Nat → Card) :
    keyPressGame s KEY_H draws = keyPressGame s KEY_h draws
    ∧ keyPressGame s KEY_S draws = keyPressGame s KEY_s draws
    ∧ keyPressGame s KEY_R draws = keyPressGame s KEY_r draws := by
  simp [keyPressGame, KEY_ENTER, KEY_r, KEY_R, KEY_h, KEY_H, KEY_s, KEY_S]

theorem step_raiseBet (s : State) (draws : Nat → Card) :
    step s .RaiseBet draws = specialKeyPress s GLUT_KEY_UP := rfl

theorem step_lowerBet (s : State) (draws : Nat → Card) :
    step s .LowerBet draws = specialKeyPress s GLUT_KEY_DOWN := rfl

theorem specialKeyPress_gameOver (s : State) (key : Int) :
    (specialKeyPress s key).gameOver = s.gameOver := by
  unfold specialKeyPress; split_ifs <;> rfl

theorem startGame_gameOver (s : State) (draws : Nat → Card) :
    (startGame s draws).gameOver = false ∨ startGame s draws = s := by
  unfold startGame; split_ifs
  · exact Or.inr rfl
  · exact Or.inl rfl

theorem evaluateResult_gameOver (s : State) : (evaluateResult s).gameOver = true := by
  simp [evaluateResult, updateHighScore_gameOver]

theorem evaluateResult_bankrupt (s : State) :
    (evaluateResult s).bankrupt = (checkBankrupt (settleBet s)).bankrupt := by
  simp [evaluateResult, updateHighScore_bankrupt]

theorem evaluateResult_solvent (s : State) :
    0 ≤ (evaluateResult s).playerMoney
    ∧ ((evaluateResult s).playerMoney = 0 → (evaluateResult s).bankrupt = true) := by
  rw [evaluateResult_playerMoney, evaluateResult_bankrupt, checkBankrupt_playerMoney,
    checkBankrupt_bankrupt]
  split_ifs with h
  · exact ⟨le_refl _, fun _ => rfl⟩
  · exact ⟨by omega, fun h0 => absurd h0 (by omega)⟩

theorem checkBustBankrupt_playerMoney (s : State) :
    (checkBustBankrupt s).playerMoney = if s.playerMoney ≤ 0 then 0 else s.playerMoney := by
  unfold checkBustBankrupt; split_ifs <;> rfl

theorem checkBustBankrupt_bankrupt (s : State) :
    (checkBustBankrupt s).bankrupt = if s.playerMoney ≤ 0 then true else s.bankrupt := by
  unfold checkBustBankrupt; split_ifs <;> rfl

theorem playerBust_playerMoney (s : State) :
    (playerBust s).playerMoney =
      if wrapInt (s.playerMoney - s.currentBet) ≤ 0 then 0
      else wrapInt (s.playerMoney - s.currentBet) := by
  simp [playerBust, updateHighScore_playerMoney, checkBustBankrupt_playerMoney]

theorem playerBust_bankrupt (s : State) :
    (playerBust s).bankrupt =
      if wrapInt (s.playerMoney - s.currentBet) ≤ 0 then true else s.bankrupt := by
  simp [playerBust, updateHighScore_bankrupt, checkBustBankrupt_bankrupt]

theorem playerBust_gameOver (s : State) : (playerBust s).gameOver = true := by
  simp [playerBust, updateHighScore_gameOver]

theorem playerBust_solvent (s : State) :
    0 ≤ (playerBust s).playerMoney
    ∧ ((playerBust s).playerMoney = 0 → (playerBust s).bankrupt = true) := by
  rw [playerBust_playerMoney, playerBust_bankrupt]
  split_ifs with h
  · exact ⟨le_refl _, fun _ => rfl⟩
  · exact ⟨by omega, fun h0 => absurd h0 (by omega)⟩

/-- Claim C5.  After any command that ends a round (the round was not over
before it and is over after it: Stand through `evaluateResult`, or the bust
branch of `playerHit`), the bankroll is not negative, and if it is 0 the
bankrupt flag is set. -/
theorem round_end_bankroll (s : State) (cmd : Command) (draws : Nat → Card)
    (hopen : s.gameOver = false) (hend : (step s cmd draws).gameOver = true) :
    0 ≤ (step s cmd draws).playerMoney
    ∧ ((step s cmd draws).playerMoney = 0 → (step s cmd draws).bankrupt = true) := by
  cases cmd with
  | Deal =>
    rw [step_deal] at hend
    rcases startGame_gameOver s draws with h | h
    · rw [h] at hend; exact absurd hend (by decide)
    · rw [h, hopen] at hend; exact absurd hend (by decide)
  | RaiseBet =>
    rw [step_raiseBet, specialKeyPress_gameOver, hopen] at hend
    exact absurd hend (by decide)
  | LowerBet =>
    rw [step_lowerBet, specialKeyPress_gameOver, hopen] at hend
    exact absurd hend (by decide)
  | Continue =>
    rw [step_continue, hopen] at hend
    simp [hopen] at hend
  | Hit =>
    rw [step_hit] at hend ⊢
    unfold playerHit at hend ⊢
    split_ifs at hend ⊢ with h1 h2 h3
    · rw [hopen] at hend; exact absurd hend (by decide)
    · rw [hopen] at hend; exact absurd hend (by decide)
    · exact playerBust_solvent _
    · simp [playerTakes, hopen] at hend
  | Stand =>
    rw [step_stand] at hend ⊢
    unfold playerStand at hend ⊢
    split_ifs at hend ⊢ with h1
    · rw [hopen] at hend; exact absurd hend (by decide)
    · exact evaluateResult_solvent _

/-- Claim C5, witness.  With the whole bankroll of 1000 bet and 10, 6 in hand,
a King busts the player: the round is over, the bankroll 0, the flag set. -/
theorem round_end_bankroll_witness :
    allInDealt.gameOver = false
    ∧ (step allInDealt .Hit (drawsOf [diamond 13])).gameOver = true
    ∧ (step allInDealt .Hit (drawsOf [diamond 13])).playerMoney = 0
    ∧ (step allInDealt .Hit (drawsOf [diamond 13])).bankrupt = true :=
  ⟨by set_option maxRecDepth 100000 in decide, by set_option maxRecDepth 100000 in decide,
   by set_option maxRecDepth 100000 in decide,
   (round_end_bankroll allInDealt .Hit (drawsOf [diamond 13])
      (by set_option maxRecDepth 100000 in decide)
      (by set_option maxRecDepth 100000 in decide)).2
      (by set_option maxRecDepth 100000 in decide)⟩

/-! ## The dealer-play loop (C6) -/

theorem take_succ_set (l : List Card) (i : Nat) (c : Card) (h : i < l.length) :
    (l.set i c).take (i + 1) = l.take i ++ [c] := by
  induction l generalizing i with
  | nil => simp at h
  | cons x xs ih =>
    cases i with
    | zero => simp
    | succ j =>
      have hj : j < xs.length := by simpa using h
      simp [ih j hj]

theorem handCards_store (a : CardArray) (i : Nat) (c : Card) (h : i < MAX_CARDS) :
    handCards (a.store i c) (i + 1) = handCards a i ++ [c] := by
  unfold handCards CardArray.store
  rw [if_pos h]
  exact take_succ_set a.1 i c (by rw [a.2]; exact h)

theorem dealerPlay_unfold (s : State) (draws : Nat → Card) :
    dealerPlay s draws =
      if getScore s.dealerHand.1 s.dealerCardCount < 17 then
        if s.dealerCardCount ≥ MAX_CARDS then s
        else dealerPlay (dealerTakes s (draws 0)) (fun i => draws (i + 1))
      else s := by
  unfold dealerPlay
  by_cases hc : s.dealerCardCount ≥ MAX_CARDS
  · have h0 : MAX_CARDS - s.dealerCardCount = 0 := by omega
    rw [h0]
    simp [dealerLoop, hc]
  · have h1 : MAX_CARDS - s.dealerCardCount = (MAX_CARDS - (dealerTakes s (draws 0)).dealerCardCount) + 1 := by
      simp only [dealerTakes]; omega
    rw [h1]
    simp [dealerLoop, hc]

theorem dealerLoop_spec (n : Nat) (s : State) (draws : Nat → Card)
    (hn : n = MAX_CARDS - s.dealerCardCount) (hc : s.dealerCardCount ≤ MAX_CARDS) :
    ∃ k : Nat,
      (dealerLoop n s draws).dealerCardCount = s.dealerCardCount + k
      ∧ handCards (dealerLoop n s draws).dealerHand (s.dealerCardCount + k)
          = handCards s.dealerHand s.dealerCardCount ++ (List.range k).map draws
      ∧ (17 ≤ getScore (dealerLoop n s draws).dealerHand.1 (dealerLoop n s draws).dealerCardCount
          ∨ (dealerLoop n s draws).dealerCardCount = MAX_CARDS) := by
  induction n generalizing s draws with
  | zero =>
    refine ⟨0, by simp [dealerLoop], by simp [dealerLoop], Or.inr ?_⟩
    simp only [dealerLoop]; omega
  | succ n ih =>
    by_cases hlt : getScore s.dealerHand.1 s.dealerCardCount < 17
    · have hcount : ¬ s.dealerCardCount ≥ MAX_CARDS := by omega
      have hrec : dealerLoop (n + 1) s draws
          = dealerLoop n (dealerTakes s (draws 0)) (fun i => draws (i + 1)) := by
        simp [dealerLoop, hlt, hcount]
      obtain ⟨k, hk1, hk2, hk3⟩ := ih (dealerTakes s (draws 0)) (fun i => draws (i + 1))
        (by simp only [dealerTakes]; omega) (by simp only [dealerTakes]; omega)
      rw [hrec]
      refine ⟨k + 1, ?_, ?_, hk3⟩
      · rw [hk1]; simp only [dealerTakes]; omega
      · have e1 : s.dealerCardCount + (k + 1) = (dealerTakes s (draws 0)).dealerCardCount + k := by
          simp only [dealerTakes]; omega
        rw [e1, hk2]
        simp only [dealerTakes]
        rw [handCards_store _ _ _ (by omega), List.range_succ_eq_map, List.map_cons, List.map_map,
          List.append_assoc]
        rfl
    · refine ⟨0, by simp [dealerLoop, hlt], by simp [dealerLoop, hlt], Or.inl ?_⟩
      simp only [dealerLoop, hlt, if_false]
      omega

/-- Claim C6.  For a dealer hand of at most `MAX_CARDS` cards and any stream of
drawn cards, the dealer-play loop terminates: `dealerPlay` is a total function
that satisfies the unfolding of the `while` loop (first conjunct).  It ends in
a state whose dealer hand is the initial hand followed by the first `k` drawn
cards, for some `k`, and in which the dealer's score is at least 17 or the
hand holds `MAX_CARDS` cards. -/
theorem dealerPlay_halts (s : State) (draws : Nat → Card)
    (hsize : s.dealerCardCount ≤ MAX_CARDS) :
    (dealerPlay s draws =
      if getScore s.dealerHand.1 s.dealerCardCount < 17 then
        if s.dealerCardCount ≥ MAX_CARDS then s
        else dealerPlay (dealerTakes s (draws 0)) (fun i => draws (i + 1))
      else s)
    ∧ ∃ k : Nat,
      (dealerPlay s draws).dealerCardCount = s.dealerCardCount + k
      ∧ handCards (dealerPlay s draws).dealerHand (s.dealerCardCount + k)
          = handCards s.dealerHand s.dealerCardCount ++ (List.range k).map draws
      ∧ (17 ≤ getScore (dealerPlay s draws).dealerHand.1 (dealerPlay s draws).dealerCardCount
          ∨ (dealerPlay s draws).dealerCardCount = MAX_CARDS) :=
  ⟨dealerPlay_unfold s draws, dealerLoop_spec _ s draws rfl hsize⟩

/-- Claim C6, witness.  From the empty hand of the initial state the dealer
draws 10 and 7 and stops at 17 with two cards. -/
theorem dealerPlay_halts_witness :
    (main none).dealerCardCount ≤ MAX_CARDS
    ∧ (dealerPlay (main none) (drawsOf [diamond 10, diamond 7])).dealerCardCount = 2
    ∧ getScore (dealerPlay (main none) (drawsOf [diamond 10, diamond 7])).dealerHand.1 2 = 17
    ∧ ∃ k : Nat,
        (dealerPlay (main none) (drawsOf [diamond 10, diamond 7])).dealerCardCount
          = (main none).dealerCardCount + k
        ∧ handCards (dealerPlay (main none) (drawsOf [diamond 10, diamond 7])).dealerHand
            ((main none).dealerCardCount + k)
          = handCards (main none).dealerHand (main none).dealerCardCount
            ++ (List.range k).map (drawsOf [diamond 10, diamond 7])
        ∧ (17 ≤ getScore (dealerPlay (main none) (drawsOf [diamond 10, diamond 7])).dealerHand.1
              (dealerPlay (main none) (drawsOf [diamond 10, diamond 7])).dealerCardCount
            ∨ (dealerPlay (main none) (drawsOf [diamond 10, diamond 7])).dealerCardCount
              = MAX_CARDS) :=
  ⟨by decide, by decide, by decide,
   (dealerPlay_halts (main none) (drawsOf [diamond 10, diamond 7]) (by decide)).2⟩

/-! ## Continue (C7, C8) -/

/-- Claim C7, the code at the failing input.  In the reachable round-over state
`bustWithAllIn` (bet 1000, bust by `playerHit`) the bankrupt flag is set and
the bankroll is 0; Continue resets the bankroll to 1000 and clears the flag
but leaves the bet at 1000.  After the same loss by Stand (`evaluateResult`,
which resets the bet when it sets the flag) Continue leaves the bet at 100. -/
theorem bust_bankruptcy_keeps_bet :
    Reachable bustWithAllIn
    ∧ roundState bustWithAllIn = .RoundOver
    ∧ bustWithAllIn.bankrupt = true
    ∧ bustWithAllIn.playerMoney = 0
    ∧ (step bustWithAllIn .Continue (drawsOf [])).playerMoney = 1000
    ∧ (step bustWithAllIn .Continue (drawsOf [])).bankrupt = false
    ∧ (step bustWithAllIn .Continue (drawsOf [])).currentBet = 1000
    ∧ standLossWithAllIn.bankrupt = true
    ∧ (step standLossWithAllIn .Continue (drawsOf [])).currentBet = 100 := by
  refine ⟨reachable_run _ _ reachable_allInDealt (by decide), ?_⟩
  set_option maxRecDepth 100000 in decide

/-- Continue in a state with the round over and the bankrupt flag set: the
bankroll becomes 1000 and the flag is cleared; the bet and the hands are
left as they are. -/
theorem continue_when_bankrupt (s : State) (draws : Nat → Card)
    (hover : s.gameOver = true) (hflag : s.bankrupt = true) :
    step s .Continue draws =
      { s with
        playerMoney := 1000
        bankrupt := false
        betConfirmed := false
        gameOver := false
        gameMessage := "Set your bet: Use Up/Down arrows, Enter to deal" } := by
  rw [step_continue, if_pos hover]
  simp [continueRound, hflag]

/-- Continue after a bankrupting loss by Stand. -/
theorem continue_when_bankrupt_witness :
    standLossWithAllIn.gameOver = true
    ∧ standLossWithAllIn.bankrupt = true
    ∧ (step standLossWithAllIn .Continue (drawsOf [])).playerMoney = 1000
    ∧ (step standLossWithAllIn .Continue (drawsOf [])).bankrupt = false :=
  ⟨by set_option maxRecDepth 100000 in decide, by set_option maxRecDepth 100000 in decide,
   by rw [continue_when_bankrupt standLossWithAllIn (drawsOf [])
        (by set_option maxRecDepth 100000 in decide)
        (by set_option maxRecDepth 100000 in decide)],
   by rw [continue_when_bankrupt standLossWithAllIn (drawsOf [])
        (by set_option maxRecDepth 100000 in decide)
        (by set_option maxRecDepth 100000 in decide)]⟩

/-- Claim C8, counterexample.  In the reachable round-over state `lostRound`
(bet raised to 110, round lost, flag clear) Continue yields a state that awaits
a bet with two cards still in each hand and the bet still at 110. -/
theorem continue_keeps_cards_and_raised_bet :
    Reachable lostRound
    ∧ roundState lostRound = .RoundOver
    ∧ lostRound.bankrupt = false
    ∧ roundState (step lostRound .Continue (drawsOf [])) = .AwaitingBet
    ∧ (step lostRound .Continue (drawsOf [])).playerCardCount = 2
    ∧ (step lostRound .Continue (drawsOf [])).dealerCardCount = 2
    ∧ (step lostRound .Continue (drawsOf [])).currentBet = 110
    ∧ (step lostRound .Continue (drawsOf [])).playerMoney = 890 := by
  refine ⟨reachable_run _ _ (Reachable.start none) (by decide), ?_⟩
  decide

/-- Claim C8, amended.  In a state with the round over and the bankrupt flag
clear, Continue changes only `betConfirmed`, `gameOver` and the message: the
result awaits a bet, and the bankroll, the bet, both hands and both hand
counts are unchanged. -/
theorem continue_when_solvent (s : State) (draws : Nat → Card)
    (hover : s.gameOver = true) (hflag : s.bankrupt = false) :
    step s .Continue draws =
      { s with
        betConfirmed := false
        gameOver := false
        gameMessage := "Set your bet: Use Up/Down arrows, Enter to deal" }
    ∧ roundState (step s .Continue draws) = .AwaitingBet
    ∧ (step s .Continue draws).playerMoney = s.playerMoney
    ∧ (step s .Continue draws).currentBet = s.currentBet
    ∧ (step s .Continue draws).playerHand = s.playerHand
    ∧ (step s .Continue draws).playerCardCount = s.playerCardCount
    ∧ (step s .Continue draws).dealerHand = s.dealerHand
    ∧ (step s .Continue draws).dealerCardCount = s.dealerCardCount := by
  have h : step s .Continue draws =
      { s with
        betConfirmed := false
        gameOver := false
        gameMessage := "Set your bet: Use Up/Down arrows, Enter to deal" } := by
    rw [step_continue, if_pos hover]
    simp [continueRound, hflag]
  rw [h]
  exact ⟨rfl, rfl, rfl, rfl, rfl, rfl, rfl, rfl⟩

/-- Claim C8, witness.  Continue after the lost round `lostRound`. -/
theorem continue_when_solvent_witness :
    lostRound.gameOver = true
    ∧ lostRound.bankrupt = false
    ∧ roundState (step lostRound .Continue (drawsOf [])) = .AwaitingBet
    ∧ (step lostRound .Continue (drawsOf [])).playerMoney = lostRound.playerMoney
    ∧ (step lostRound .Continue (drawsOf [])).currentBet = lostRound.currentBet :=
  ⟨by decide, by decide,
   (continue_when_solvent lostRound (drawsOf []) (by decide) (by decide)).2.1,
   (continue_when_solvent lostRound (drawsOf []) (by decide) (by decide)).2.2.1,
   (continue_when_solvent lostRound (drawsOf []) (by decide) (by decide)).2.2.2.1⟩

/-- A successful Deal replaces both hands: the player holds the first two drawn
cards and the dealer the next two. -/
theorem startGame_hands (s : State) (draws : Nat → Card)
    (hbet : s.betConfirmed = false) (hafford : s.currentBet ≤ s.playerMoney)
    (hflag : s.bankrupt = false) :
    handCards (step s .Deal draws).playerHand (step s .Deal draws).playerCardCount
      = [draws 0, draws 1]
    ∧ handCards (step s .Deal draws).dealerHand (step s .Deal draws).dealerCardCount
      = [draws 2, draws 3] := by
  have hs : startGame s draws =
      { s with
        playerHand := (s.playerHand.store 0 (draws 0)).store 1 (draws 1)
        playerCardCount := 2
        dealerHand := (s.dealerHand.store 0 (draws 2)).store 1 (draws 3)
        dealerCardCount := 2
        betConfirmed := true
        playerTurn := true
        gameOver := false
        gameMessage := "Hit (H) or Stand (S)" } := by
    unfold startGame
    simp [hbet, hflag, not_lt.mpr hafford]
  rw [step_deal, hs]
  have key : ∀ (a : CardArray) (c d : Card), handCards ((a.store 0 c).store 1 d) 2 = [c, d] := by
    intro a c d
    have h1 := handCards_store a 0 c (by decide)
    have h2 := handCards_store (a.store 0 c) 1 d (by decide)
    rw [h2, h1]
    simp [handCards]
  exact ⟨key _ _ _, key _ _ _⟩

/-! ## Hit during the player's turn (C9) -/

theorem updateHighScore_currentBet (s : State) :
    (updateHighScore s).currentBet = s.currentBet := by
  unfold updateHighScore; split_ifs <;> rfl

theorem updateHighScore_playerHand (s : State) :
    (updateHighScore s).playerHand = s.playerHand := by
  unfold updateHighScore; split_ifs <;> rfl

theorem updateHighScore_playerCardCount (s : State) :
    (updateHighScore s).playerCardCount = s.playerCardCount := by
  unfold updateHighScore; split_ifs <;> rfl

theorem updateHighScore_dealerHand (s : State) :
    (updateHighScore s).dealerHand = s.dealerHand := by
  unfold updateHighScore; split_ifs <;> rfl

theorem updateHighScore_dealerCardCount (s : State) :
    (updateHighScore s).dealerCardCount = s.dealerCardCount := by
  unfold updateHighScore; split_ifs <;> rfl

theorem updateHighScore_betConfirmed (s : State) :
    (updateHighScore s).betConfirmed = s.betConfirmed := by
  unfold updateHighScore; split_ifs <;> rfl

theorem updateHighScore_playerTurn (s : State) :
    (updateHighScore s).playerTurn = s.playerTurn := by
  unfold updateHighScore; split_ifs <;> rfl

theorem checkBustBankrupt_frame (s : State) :
    (checkBustBankrupt s).currentBet = s.currentBet
    ∧ (checkBustBankrupt s).playerHand = s.playerHand
    ∧ (checkBustBankrupt s).playerCardCount = s.playerCardCount
    ∧ (checkBustBankrupt s).dealerHand = s.dealerHand
    ∧ (checkBustBankrupt s).dealerCardCount = s.dealerCardCount
    ∧ (checkBustBankrupt s).betConfirmed = s.betConfirmed := by
  unfold checkBustBankrupt; split_ifs <;> exact ⟨rfl, rfl, rfl, rfl, rfl, rfl⟩

theorem playerBust_frame (s : State) :
    (playerBust s).currentBet = s.currentBet
    ∧ (playerBust s).playerHand = s.playerHand
    ∧ (playerBust s).playerCardCount = s.playerCardCount
    ∧ (playerBust s).dealerHand = s.dealerHand
    ∧ (playerBust s).dealerCardCount = s.dealerCardCount
    ∧ (playerBust s).betConfirmed = s.betConfirmed := by
  unfold playerBust
  rw [updateHighScore_currentBet, updateHighScore_playerHand, updateHighScore_playerCardCount,
    updateHighScore_dealerHand, updateHighScore_dealerCardCount, updateHighScore_betConfirmed]
  exact checkBustBankrupt_frame _

theorem roundState_playerTurn_iff (s : State) :
    roundState s = .PlayerTurn
      ↔ s.betConfirmed = true ∧ s.gameOver = false ∧ s.playerTurn = true := by
  unfold roundState
  cases s.betConfirmed <;> cases s.gameOver <;> cases s.playerTurn <;> simp

theorem roundState_roundOver_iff (s : State) :
    roundState s = .RoundOver ↔ s.betConfirmed = true ∧ s.gameOver = true := by
  unfold roundState
  cases s.betConfirmed <;> cases s.gameOver <;> cases s.playerTurn <;> simp

/-- Claim C9.  In a PlayerTurn state (bet confirmed, round not over, player to
act; the bankrupt flag is clear there, see `reachable_playerTurn_solvent`)
with fewer than `MAX_CARDS` cards in the player's hand and `bankroll - bet`
an `int`, Hit appends the drawn card to the player's hand and leaves the
dealer's hand and the bet unchanged.  If the new score exceeds 21 the bankroll
becomes `max (bankroll - bet) 0`, the bankrupt flag is set exactly when that
is 0, and the round is over with the dealer's hand as it was.  If the new
score is at most 21 the bankroll and the flag are unchanged and the state is
still PlayerTurn. -/
theorem hit_in_player_turn (s : State) (draws : Nat → Card)
    (hturn : roundState s = .PlayerTurn) (hflag : s.bankrupt = false)
    (hsize : s.playerCardCount < MAX_CARDS)
    (hrange : InIntRange (s.playerMoney - s.currentBet)) :
    handCards (step s .Hit draws).playerHand (step s .Hit draws).playerCardCount
        = handCards s.playerHand s.playerCardCount ++ [draws 0]
    ∧ (step s .Hit draws).dealerHand = s.dealerHand
    ∧ (step s .Hit draws).dealerCardCount = s.dealerCardCount
    ∧ (step s .Hit draws).currentBet = s.currentBet
    ∧ (21 < getScore (step s .Hit draws).playerHand.1 (step s .Hit draws).playerCardCount →
        (step s .Hit draws).playerMoney = max (s.playerMoney - s.currentBet) 0
        ∧ ((step s .Hit draws).bankrupt = true ↔ max (s.playerMoney - s.currentBet) 0 = 0)
        ∧ roundState (step s .Hit draws) = .RoundOver)
    ∧ (getScore (step s .Hit draws).playerHand.1 (step s .Hit draws).playerCardCount ≤ 21 →
        (step s .Hit draws).playerMoney = s.playerMoney
        ∧ (step s .Hit draws).bankrupt = s.bankrupt
        ∧ roundState (step s .Hit draws) = .PlayerTurn) := by
  obtain ⟨hbc, hgo, hpt⟩ := (roundState_playerTurn_iff s).1 hturn
  have hcards : handCards (playerTakes s (draws 0)).playerHand (playerTakes s (draws 0)).playerCardCount
      = handCards s.playerHand s.playerCardCount ++ [draws 0] :=
    handCards_store s.playerHand s.playerCardCount (draws 0) hsize
  have hwrap := wrapInt_eq_self _ hrange
  by_cases hbust :
      getScore (playerTakes s (draws 0)).playerHand.1 (playerTakes s (draws 0)).playerCardCount > 21
  · have hstep : step s .Hit draws = playerBust (playerTakes s (draws 0)) := by
      rw [step_hit]; unfold playerHit
      simp [hpt, hgo, not_le.mpr hsize, hbust]
    obtain ⟨f1, f2, f3, f4, f5, f6⟩ := playerBust_frame (playerTakes s (draws 0))
    have hmoney : (playerBust (playerTakes s (draws 0))).playerMoney
        = max (s.playerMoney - s.currentBet) 0 := by
      rw [playerBust_playerMoney]
      show (if wrapInt (s.playerMoney - s.currentBet) ≤ 0 then 0
        else wrapInt (s.playerMoney - s.currentBet)) = _
      rw [hwrap]; split_ifs <;> omega
    have hbk : (playerBust (playerTakes s (draws 0))).bankrupt = true
        ↔ max (s.playerMoney - s.currentBet) 0 = 0 := by
      rw [playerBust_bankrupt]
      show (if wrapInt (s.playerMoney - s.currentBet) ≤ 0 then true else s.bankrupt) = true ↔ _
      rw [hwrap, hflag]; split_ifs <;> simp <;> omega
    rw [hstep, f1, f2, f3, f4, f5]
    refine ⟨hcards, rfl, rfl, rfl, fun _ => ⟨hmoney, hbk, ?_⟩, fun hle => absurd hle (by omega)⟩
    rw [roundState_roundOver_iff, f6, playerBust_gameOver]
    exact ⟨hbc, rfl⟩
  · have hstep : step s .Hit draws = playerTakes s (draws 0) := by
      rw [step_hit]; unfold playerHit
      simp [hpt, hgo, not_le.mpr hsize, hbust]
    rw [hstep]
    refine ⟨hcards, rfl, rfl, rfl, fun h => absurd h hbust, fun _ => ⟨rfl, rfl, ?_⟩⟩
    rw [roundState_playerTurn_iff]
    exact ⟨hbc, hgo, hpt⟩

/-- Claim C9, witness.  Bankroll 1000, bet 100, player 10, 5: a King makes 25,
the bankroll becomes 900 and the round is over. -/
theorem hit_in_player_turn_witness :
    roundState dealtFifteen = .PlayerTurn
    ∧ dealtFifteen.playerMoney = 1000
    ∧ dealtFifteen.currentBet = 100
    ∧ handCards dealtFifteen.playerHand dealtFifteen.playerCardCount = [diamond 10, diamond 5]
    ∧ getScore (step dealtFifteen .Hit (drawsOf [diamond 13])).playerHand.1
        (step dealtFifteen .Hit (drawsOf [diamond 13])).playerCardCount = 25
    ∧ (step dealtFifteen .Hit (drawsOf [diamond 13])).playerMoney = 900
    ∧ roundState (step dealtFifteen .Hit (drawsOf [diamond 13])) = .RoundOver :=
  ⟨by decide, by decide, by decide, by decide, by decide,
   ((hit_in_player_turn dealtFifteen (drawsOf [diamond 13]) (by decide) (by decide) (by decide)
      (by decide)).2.2.2.2.1 (by decide)).1.trans (by decide),
   ((hit_in_player_turn dealtFifteen (drawsOf [diamond 13]) (by decide) (by decide) (by decide)
      (by decide)).2.2.2.2.1 (by decide)).2.2⟩

theorem startGame_cases (s : State) (draws : Nat → Card) :
    startGame s draws = s
    ∨ (s.bankrupt = false ∧ (startGame s draws).bankrupt = false
        ∧ (startGame s draws).gameOver = false) := by
  unfold startGame
  split_ifs with h
  · exact Or.inl rfl
  · refine Or.inr ⟨?_, ?_, rfl⟩
    · simp at h; exact h.2
    · simp at h; exact h.2

theorem specialKeyPress_bankrupt (s : State) (key : Int) :
    (specialKeyPress s key).bankrupt = s.bankrupt := by
  unfold specialKeyPress; split_ifs <;> rfl

theorem continueRound_bankrupt (s : State) : (continueRound s).bankrupt = false := by
  unfold continueRound
  cases h : s.bankrupt <;> simp [h]

/-- The bankrupt flag is only ever set in a state whose round is over. -/
theorem reachable_bankrupt_gameOver (s : State) (hs : Reachable s)
    (hflag : s.bankrupt = true) : s.gameOver = true := by
  induction hs with
  | start file => simp [main] at hflag
  | next cmd draws hprev hvalid ih =>
    rename_i t
    cases cmd with
    | Deal =>
      rw [step_deal] at hflag ⊢
      rcases startGame_cases t draws with h | ⟨_, h2, _⟩
      · rw [h] at hflag ⊢; exact ih hflag
      · rw [h2] at hflag; exact absurd hflag (by decide)
    | RaiseBet =>
      rw [step_raiseBet, specialKeyPress_bankrupt] at hflag
      rw [step_raiseBet, specialKeyPress_gameOver]; exact ih hflag
    | LowerBet =>
      rw [step_lowerBet, specialKeyPress_bankrupt] at hflag
      rw [step_lowerBet, specialKeyPress_gameOver]; exact ih hflag
    | Hit =>
      rw [step_hit] at hflag ⊢
      unfold playerHit at hflag ⊢
      split_ifs at hflag ⊢
      · exact ih hflag
      · exact ih hflag
      · exact playerBust_gameOver _
      · exact ih hflag
    | Stand =>
      rw [step_stand] at hflag ⊢
      unfold playerStand at hflag ⊢
      split_ifs at hflag ⊢
      · exact ih hflag
      · exact evaluateResult_gameOver _
    | Continue =>
      rw [step_continue] at hflag ⊢
      split_ifs at hflag ⊢ with h
      · rw [continueRound_bankrupt] at hflag; exact absurd hflag (by decide)
      · exact ih hflag

/-- In a reachable state in which the player is to act the bankrupt flag is clear. -/
theorem reachable_playerTurn_solvent (s : State) (hs : Reachable s)
    (hturn : roundState s = .PlayerTurn) : s.bankrupt = false := by
  obtain ⟨_, hgo, _⟩ := (roundState_playerTurn_iff s).1 hturn
  cases hb : s.bankrupt
  · rfl
  · have := reachable_bankrupt_gameOver s hs hb
    rw [hgo] at this; exact absurd this (by decide)

/-! ## The high score (C10) -/

theorem settleBet_store (s : State) : highScoreStore (settleBet s) = highScoreStore s := by
  unfold settleBet; split_ifs <;> rfl

theorem checkBankrupt_store (s : State) : highScoreStore (checkBankrupt s) = highScoreStore s := by
  unfold checkBankrupt; split_ifs <;> rfl

theorem checkBustBankrupt_store (s : State) :
    highScoreStore (checkBustBankrupt s) = highScoreStore s := by
  unfold checkBustBankrupt; split_ifs <;> rfl

theorem dealerLoop_store (n : Nat) (s : State) (draws : Nat → Card) :
    highScoreStore (dealerLoop n s draws) = highScoreStore s := by
  induction n generalizing s draws with
  | zero => rfl
  | succ n ih =>
    unfold dealerLoop
    split_ifs
    · rfl
    · rw [ih]; rfl
    · rfl

theorem specialKeyPress_store (s : State) (key : Int) :
    highScoreStore (specialKeyPress s key) = highScoreStore s := by
  unfold specialKeyPress; split_ifs <;> rfl

theorem startGame_store (s : State) (draws : Nat → Card) :
    highScoreStore (startGame s draws) = highScoreStore s := by
  unfold startGame; split_ifs <;> rfl

theorem continueRound_store (s : State) : highScoreStore (continueRound s) = highScoreStore s := by
  unfold continueRound; split_ifs <;> rfl

theorem store_unchanged (s t : State) (h : highScoreStore t = highScoreStore s) :
    s.highestMoney ≤ t.highestMoney
    ∧ t.fileWrites
        = (if s.highestMoney < t.highestMoney then t.highestMoney :: s.fileWrites
          else s.fileWrites)
    ∧ t.highscoreFile
        = (if s.highestMoney < t.highestMoney then some t.highestMoney else s.highscoreFile) := by
  simp only [highScoreStore, Prod.mk.injEq] at h
  obtain ⟨h1, h2, h3⟩ := h
  rw [h1, h2, h3]
  simp

theorem store_updated (s u : State) (h : highScoreStore u = highScoreStore s) :
    s.highestMoney ≤ (updateHighScore u).highestMoney
    ∧ (updateHighScore u).fileWrites
        = (if s.highestMoney < (updateHighScore u).highestMoney then
            (updateHighScore u).highestMoney :: s.fileWrites
          else s.fileWrites)
    ∧ (updateHighScore u).highscoreFile
        = (if s.highestMoney < (updateHighScore u).highestMoney then
            some (updateHighScore u).highestMoney
          else s.highscoreFile) := by
  simp only [highScoreStore, Prod.mk.injEq] at h
  obtain ⟨h1, h2, h3⟩ := h
  have hm : (updateHighScore u).highestMoney
      = if u.playerMoney > s.highestMoney then u.playerMoney else s.highestMoney := by
    unfold updateHighScore; rw [← h1]; split_ifs <;> rfl
  have hw : (updateHighScore u).fileWrites
      = if u.playerMoney > s.highestMoney then u.playerMoney :: s.fileWrites
        else s.fileWrites := by
    unfold updateHighScore; rw [← h1, ← h2]; split_ifs <;> rfl
  have hf : (updateHighScore u).highscoreFile
      = if u.playerMoney > s.highestMoney then some u.playerMoney else s.highscoreFile := by
    unfold updateHighScore; rw [← h1, ← h3]; split_ifs <;> rfl
  rw [hm, hw, hf]
  by_cases hgt : u.playerMoney > s.highestMoney
  · rw [if_pos hgt, if_pos hgt, if_pos hgt]
    exact ⟨by omega, by simp [hgt], by simp [hgt]⟩
  · rw [if_neg hgt, if_neg hgt, if_neg hgt]
    simp

/-- Effect of a command on the high-score store: the high score does not
decrease, and the file is written, with the new high score, exactly when the
high score has increased. -/
theorem step_highScoreStore (s : State) (cmd : Command) (draws : Nat → Card) :
    s.highestMoney ≤ (step s cmd draws).highestMoney
    ∧ (step s cmd draws).fileWrites
      = (if s.highestMoney < (step s cmd draws).highestMoney then
          (step s cmd draws).highestMoney :: s.fileWrites
        else s.fileWrites)
    ∧ (step s cmd draws).highscoreFile
      = (if s.highestMoney < (step s cmd draws).highestMoney then
          some (step s cmd draws).highestMoney
        else s.highscoreFile) := by
  cases cmd with
  | Deal => rw [step_deal]; exact store_unchanged s _ (startGame_store s draws)
  | RaiseBet => rw [step_raiseBet]; exact store_unchanged s _ (specialKeyPress_store s _)
  | LowerBet => rw [step_lowerBet]; exact store_unchanged s _ (specialKeyPress_store s _)
  | Continue =>
    rw [step_continue]
    by_cases h : s.gameOver = true
    · rw [if_pos h]; exact store_unchanged s _ (continueRound_store s)
    · rw [if_neg h]; exact store_unchanged s s rfl
  | Hit =>
    rw [step_hit]; unfold playerHit
    by_cases h1 : (!s.playerTurn || s.gameOver) = true
    · rw [if_pos h1]; exact store_unchanged s s rfl
    · rw [if_neg h1]
      by_cases h2 : s.playerCardCount ≥ MAX_CARDS
      · rw [if_pos h2]; exact store_unchanged s s rfl
      · rw [if_neg h2]
        by_cases h3 : getScore (playerTakes s (draws 0)).playerHand.1
            (playerTakes s (draws 0)).playerCardCount > 21
        · rw [if_pos h3]
          unfold playerBust
          refine store_updated s _ ?_
          show highScoreStore (checkBustBankrupt _) = _
          rw [checkBustBankrupt_store]; rfl
        · rw [if_neg h3]; exact store_unchanged s _ rfl
  | Stand =>
    rw [step_stand]; unfold playerStand
    by_cases h1 : (!s.playerTurn || s.gameOver) = true
    · rw [if_pos h1]; exact store_unchanged s s rfl
    · rw [if_neg h1]
      unfold dealerTurn evaluateResult
      refine store_updated s _ ?_
      show highScoreStore (checkBankrupt _) = _
      rw [checkBankrupt_store, settleBet_store]
      unfold dealerPlay
      rw [dealerLoop_store]; rfl

/-- Claim C10.  For every state, command and drawn cards the high score after
the command is at least the high score before it; the file is written exactly
when the high score has strictly increased (one write, of the new high score,
which is then the content of the file) and is otherwise left alone.
`updateHighScore` sets `highestMoney` to `playerMoney` and writes it exactly
when `playerMoney > highestMoney`. -/
theorem highScore_monotone (s : State) (cmd : Command) (draws : Nat → Card) :
    s.highestMoney ≤ (step s cmd draws).highestMoney
    ∧ (step s cmd draws).fileWrites
        = (if s.highestMoney < (step s cmd draws).highestMoney then
            (step s cmd draws).highestMoney :: s.fileWrites
          else s.fileWrites)
    ∧ (step s cmd draws).highscoreFile
        = (if s.highestMoney < (step s cmd draws).highestMoney then
            some (step s cmd draws).highestMoney
          else s.highscoreFile)
    ∧ (updateHighScore s).highestMoney
        = (if s.playerMoney > s.highestMoney then s.playerMoney else s.highestMoney)
    ∧ (updateHighScore s).fileWrites
        = (if s.playerMoney > s.highestMoney then s.playerMoney :: s.fileWrites
          else s.fileWrites) := by
  have hupd : (updateHighScore s).highestMoney
        = (if s.playerMoney > s.highestMoney then s.playerMoney else s.highestMoney)
      ∧ (updateHighScore s).fileWrites
        = (if s.playerMoney > s.highestMoney then s.playerMoney :: s.fileWrites
          else s.fileWrites) := by
    unfold updateHighScore; split_ifs <;> exact ⟨rfl, rfl⟩
  have hstep := step_highScoreStore s cmd draws
  exact ⟨hstep.1, hstep.2.1, hstep.2.2, hupd.1, hupd.2⟩

/-- Claim C10, witness.  A won round takes the high score from 1000 to
1100 and writes 1100 to the file once. -/
theorem highScore_monotone_witness :
    (main none).highestMoney = 1000
    ∧ dealtNineteen.fileWrites = []
    ∧ (step dealtNineteen .Stand (drawsOf [])).highestMoney = 1100
    ∧ (step dealtNineteen .Stand (drawsOf [])).fileWrites = [1100]
    ∧ (step dealtNineteen .Stand (drawsOf [])).highscoreFile = some 1100
    ∧ dealtNineteen.highestMoney ≤ (step dealtNineteen .Stand (drawsOf [])).highestMoney :=
  ⟨by decide, by decide, by decide, by decide, by decide,
   (highScore_monotone dealtNineteen .Stand (drawsOf [])).1⟩

/-- Across sessions: in every reachable state, a session started from the file as
it stands begins with the high score of the current session. -/
theorem reload_restores_highScore (s : State) (hs : Reachable s) :
    (main s.highscoreFile).highestMoney = s.highestMoney := by
  show s.highscoreFile.getD 1000 = s.highestMoney
  induction hs with
  | start file => rfl
  | next cmd draws hprev hvalid ih =>
    rename_i t
    obtain ⟨h1, _, h3⟩ := step_highScoreStore t cmd draws
    rw [h3]
    by_cases hlt : t.highestMoney < (step t cmd draws).highestMoney
    · rw [if_pos hlt]; rfl
    · rw [if_neg hlt, ih]; omega

/-- The reload after a won round starts at 1100. -/
theorem reload_restores_highScore_witness :
    (step dealtNineteen .Stand (drawsOf [])).highestMoney = 1100
    ∧ (main (step dealtNineteen .Stand (drawsOf [])).highscoreFile).highestMoney
        = (step dealtNineteen .Stand (drawsOf [])).highestMoney :=
  ⟨by decide,
   reload_restores_highScore _
    (Reachable.next .Stand (drawsOf []) (reachable_run _ _ (Reachable.start none) (by decide))
      (drawsOf_valid [] (by decide)))⟩

/-! ## Reordering and the single Ace (C12, C13) -/

theorem hardTotal_perm (h1 h2 : List Card) (hp : h1.Perm h2) : hardTotal h1 = hardTotal h2 := by
  unfold hardTotal
  exact (hp.map faceValue).sum_eq

theorem aceCount_perm (h1 h2 : List Card) (hp : h1.Perm h2) : aceCount h1 = aceCount h2 := by
  unfold aceCount
  exact (hp.filter _).length_eq

/-- Claim C12.  For all hands `h1` and `h2` such that `h2` is a permutation of
`h1`, `getScore` gives the same score for both. -/
theorem getScore_perm (h1 h2 : List Card) (hp : h1.Perm h2) :
    getScore h1 h1.length = getScore h2 h2.length := by
  rw [getScore_eq, getScore_eq, hardTotal_perm h1 h2 hp, aceCount_perm h1 h2 hp]

/-- Claim C12, witness.  Ace, 8, Ace, King and King, Ace, Ace, 8 both score 20. -/
theorem getScore_perm_witness :
    [diamond 1, diamond 8, diamond 1, diamond 13].Perm [diamond 13, diamond 1, diamond 1, diamond 8]
    ∧ getScore [diamond 1, diamond 8, diamond 1, diamond 13] 4 = 20
    ∧ getScore [diamond 1, diamond 8, diamond 1, diamond 13] 4
        = getScore [diamond 13, diamond 1, diamond 1, diamond 8] 4 :=
  ⟨by decide, by decide,
   getScore_perm [diamond 1, diamond 8, diamond 1, diamond 13]
     [diamond 13, diamond 1, diamond 1, diamond 8] (by decide)⟩

theorem softTotal_eq (hand : List Card) :
    softTotal hand = hardTotal hand + 10 * (aceCount hand : Int) := by
  induction hand with
  | nil => simp [softTotal, hardTotal, aceCount]
  | cons c cs ih =>
    rw [hardTotal_cons, aceCount_cons]
    have hcons : softTotal (c :: cs)
        = (if c.value = 1 then 11 else faceValue c) + softTotal cs := by
      simp [softTotal]
    rw [hcons, ih]
    by_cases h : c.value = 1
    · have hf : faceValue c = 1 := by simp [faceValue, h]
      simp only [h, if_true, hf]
      push_cast; ring
    · simp only [h, if_false]
      push_cast; ring

/-- Claim C13.  For a hand with exactly one Ace and `T` its total with the Ace
counted as 11 (`softTotal`): `getScore` returns `T` if `T <= 21`, and
`T - 10` if `T > 21`. -/
theorem getScore_one_ace (hand : List Card) (hone : aceCount hand = 1) :
    (softTotal hand ≤ 21 → getScore hand hand.length = softTotal hand)
    ∧ (21 < softTotal hand → getScore hand hand.length = softTotal hand - 10) := by
  rw [getScore_eq, softTotal_eq, hone]
  simp only [soften]
  constructor
  · intro h
    rw [if_neg (by push_cast at h ⊢; omega)]
  · intro h
    rw [if_pos (by push_cast at h ⊢; omega)]

/-- Claim C13, witness.  Ace, 9 has `T = 20` and scores 20; King, Ace, 5 has
`T = 26` and scores 16. -/
theorem getScore_one_ace_witness :
    aceCount [diamond 1, diamond 9] = 1
    ∧ softTotal [diamond 1, diamond 9] = 20
    ∧ getScore [diamond 1, diamond 9] 2 = 20
    ∧ aceCount [diamond 13, diamond 1, diamond 5] = 1
    ∧ softTotal [diamond 13, diamond 1, diamond 5] = 26
    ∧ getScore [diamond 13, diamond 1, diamond 5] 3 = 16 :=
  ⟨by decide, by decide,
   ((getScore_one_ace [diamond 1, diamond 9] (by decide)).1 (by decide)).trans (by decide),
   by decide, by decide,
   ((getScore_one_ace [diamond 13, diamond 1, diamond 5] (by decide)).2 (by decide)).trans
     (by decide)⟩

/-! ## Deal (C14) -/

theorem roundState_awaitingBet_iff (s : State) :
    roundState s = .AwaitingBet ↔ s.betConfirmed = false := by
  unfold roundState
  cases s.betConfirmed <;> cases s.gameOver <;> cases s.playerTurn <;> simp

theorem startGame_refused (s : State) (draws : Nat → Card)
    (h : s.betConfirmed = true ∨ s.playerMoney < s.currentBet ∨ s.bankrupt = true) :
    startGame s draws = s := by
  unfold startGame
  rcases h with h | h | h
  · simp [h]
  · simp [h]
  · simp [h]

theorem startGame_dealt (s : State) (draws : Nat → Card)
    (hbet : s.betConfirmed = false) (hafford : s.currentBet ≤ s.playerMoney)
    (hflag : s.bankrupt = false) :
    startGame s draws =
      { s with
        playerHand := (s.playerHand.store 0 (draws 0)).store 1 (draws 1)
        playerCardCount := 2
        dealerHand := (s.dealerHand.store 0 (draws 2)).store 1 (draws 3)
        dealerCardCount := 2
        betConfirmed := true
        playerTurn := true
        gameOver := false
        gameMessage := "Hit (H) or Stand (S)" } := by
  unfold startGame
  simp [hbet, hflag, not_lt.mpr hafford]

/-- Claim C14.  In a state that awaits a bet, with any drawn cards: if
`bet <= bankroll` and the bankrupt flag is clear, Deal yields a PlayerTurn
state whose player hand is exactly the first two drawn cards and whose dealer
hand is exactly the next two, with bankroll, bet and high score unchanged; if
`bet > bankroll` or the flag is set, Deal changes nothing. -/
theorem deal_while_awaiting_bet (s : State) (draws : Nat → Card)
    (hstate : roundState s = .AwaitingBet) :
    (s.currentBet ≤ s.playerMoney ∧ s.bankrupt = false →
      roundState (step s .Deal draws) = .PlayerTurn
      ∧ handCards (step s .Deal draws).playerHand (step s .Deal draws).playerCardCount
          = [draws 0, draws 1]
      ∧ handCards (step s .Deal draws).dealerHand (step s .Deal draws).dealerCardCount
          = [draws 2, draws 3]
      ∧ (step s .Deal draws).playerMoney = s.playerMoney
      ∧ (step s .Deal draws).currentBet = s.currentBet
      ∧ (step s .Deal draws).highestMoney = s.highestMoney)
    ∧ (s.playerMoney < s.currentBet ∨ s.bankrupt = true → step s .Deal draws = s) := by
  have hbet := (roundState_awaitingBet_iff s).1 hstate
  constructor
  · rintro ⟨hafford, hflag⟩
    obtain ⟨hp, hd⟩ := startGame_hands s draws hbet hafford hflag
    refine ⟨?_, hp, hd, ?_, ?_, ?_⟩
    · rw [step_deal, startGame_dealt s draws hbet hafford hflag]; rfl
    · rw [step_deal, startGame_dealt s draws hbet hafford hflag]
    · rw [step_deal, startGame_dealt s draws hbet hafford hflag]
    · rw [step_deal, startGame_dealt s draws hbet hafford hflag]
  · intro h
    rw [step_deal]
    exact startGame_refused s draws (Or.inr h)

/-- Claim C14, witness.  The initial state deals 10, 5 to the player; in
`lostSixHundred` (bet 600, bankroll 400) Deal changes nothing. -/
theorem deal_while_awaiting_bet_witness :
    roundState (main none) = .AwaitingBet
    ∧ roundState
        (step (main none) .Deal (drawsOf [diamond 10, diamond 5, diamond 10, diamond 8]))
        = .PlayerTurn
    ∧ handCards
        (step (main none) .Deal (drawsOf [diamond 10, diamond 5, diamond 10, diamond 8])).playerHand
        (step (main none) .Deal
          (drawsOf [diamond 10, diamond 5, diamond 10, diamond 8])).playerCardCount
        = [diamond 10, diamond 5]
    ∧ roundState lostSixHundred = .AwaitingBet
    ∧ lostSixHundred.playerMoney < lostSixHundred.currentBet
    ∧ step lostSixHundred .Deal (drawsOf []) = lostSixHundred :=
  ⟨by decide,
   ((deal_while_awaiting_bet (main none)
      (drawsOf [diamond 10, diamond 5, diamond 10, diamond 8]) (by decide)).1
      ⟨by decide, by decide⟩).1,
   ((deal_while_awaiting_bet (main none)
      (drawsOf [diamond 10, diamond 5, diamond 10, diamond 8]) (by decide)).1
      ⟨by decide, by decide⟩).2.1,
   by set_option maxRecDepth 100000 in decide,
   by set_option maxRecDepth 100000 in decide,
   (deal_while_awaiting_bet lostSixHundred (drawsOf [])
      (by set_option maxRecDepth 100000 in decide)).2
      (Or.inl (by set_option maxRecDepth 100000 in decide))⟩

/-! ## Hand counts and array writes (C15) -/

theorem settleBet_counts (s : State) :
    (settleBet s).playerCardCount = s.playerCardCount
    ∧ (settleBet s).dealerCardCount = s.dealerCardCount := by
  unfold settleBet; split_ifs <;> exact ⟨rfl, rfl⟩

theorem checkBankrupt_counts (s : State) :
    (checkBankrupt s).playerCardCount = s.playerCardCount
    ∧ (checkBankrupt s).dealerCardCount = s.dealerCardCount := by
  unfold checkBankrupt; split_ifs <;> exact ⟨rfl, rfl⟩

theorem evaluateResult_counts (s : State) :
    (evaluateResult s).playerCardCount = s.playerCardCount
    ∧ (evaluateResult s).dealerCardCount = s.dealerCardCount := by
  unfold evaluateResult
  rw [updateHighScore_playerCardCount, updateHighScore_dealerCardCount]
  exact ⟨(checkBankrupt_counts _).1.trans (settleBet_counts s).1,
    (checkBankrupt_counts _).2.trans (settleBet_counts s).2⟩

theorem specialKeyPress_counts (s : State) (key : Int) :
    (specialKeyPress s key).playerCardCount = s.playerCardCount
    ∧ (specialKeyPress s key).dealerCardCount = s.dealerCardCount := by
  unfold specialKeyPress; split_ifs <;> exact ⟨rfl, rfl⟩

theorem continueRound_counts (s : State) :
    (continueRound s).playerCardCount = s.playerCardCount
    ∧ (continueRound s).dealerCardCount = s.dealerCardCount := by
  unfold continueRound; split_ifs <;> exact ⟨rfl, rfl⟩

theorem startGame_counts (s : State) (draws : Nat → Card) :
    startGame s draws = s
    ∨ ((startGame s draws).playerCardCount = 2 ∧ (startGame s draws).dealerCardCount = 2
        ∧ (startGame s draws).playerHand = (s.playerHand.store 0 (draws 0)).store 1 (draws 1)
        ∧ (startGame s draws).dealerHand = (s.dealerHand.store 0 (draws 2)).store 1 (draws 3)) := by
  unfold startGame
  split_ifs
  · exact Or.inl rfl
  · exact Or.inr ⟨rfl, rfl, rfl, rfl⟩

/-- The dealer-play loop as a sequence of writes: it runs the statement
`dealerHand[dealerCardCount++] = drawCard()` for the first `k` drawn cards, and
every one of these writes has its index below `MAX_CARDS`. -/
theorem dealerLoop_writes (n : Nat) (s : State) (draws : Nat → Card) :
    ∃ k : Nat, (k = 0 ∨ s.dealerCardCount + k ≤ MAX_CARDS)
      ∧ dealerLoop n s draws = ((List.range k).map draws).foldl dealerTakes s := by
  induction n generalizing s draws with
  | zero => exact ⟨0, Or.inl rfl, rfl⟩
  | succ n ih =>
    by_cases hlt : getScore s.dealerHand.1 s.dealerCardCount < 17
    · by_cases hfull : s.dealerCardCount ≥ MAX_CARDS
      · exact ⟨0, Or.inl rfl, by simp [dealerLoop, hlt, hfull]⟩
      · obtain ⟨k, hk, hrun⟩ := ih (dealerTakes s (draws 0)) (fun i => draws (i + 1))
        refine ⟨k + 1, Or.inr ?_, ?_⟩
        · rcases hk with hk | hk
          · subst hk; omega
          · simp only [dealerTakes] at hk; omega
        · have hrec : dealerLoop (n + 1) s draws
              = dealerLoop n (dealerTakes s (draws 0)) (fun i => draws (i + 1)) := by
            simp [dealerLoop, hlt, hfull]
          rw [hrec, hrun, List.range_succ_eq_map, List.map_cons, List.map_map, List.foldl_cons]
          rfl
    · exact ⟨0, Or.inl rfl, by simp [dealerLoop, hlt]⟩

theorem foldl_dealerTakes_counts (cs : List Card) (s : State) :
    (cs.foldl dealerTakes s).playerCardCount = s.playerCardCount
    ∧ (cs.foldl dealerTakes s).dealerCardCount = s.dealerCardCount + cs.length := by
  induction cs generalizing s with
  | nil => exact ⟨rfl, rfl⟩
  | cons c cs ih =>
    obtain ⟨h1, h2⟩ := ih (dealerTakes s c)
    simp only [List.foldl_cons, List.length_cons]
    rw [h1, h2]
    simp only [dealerTakes]
    exact ⟨trivial, by omega⟩

theorem dealerPlay_counts (s : State) (draws : Nat → Card)
    (hd : s.dealerCardCount ≤ MAX_CARDS) :
    (dealerPlay s draws).playerCardCount = s.playerCardCount
    ∧ (dealerPlay s draws).dealerCardCount ≤ MAX_CARDS := by
  unfold dealerPlay
  obtain ⟨k, hk, hrun⟩ := dealerLoop_writes (MAX_CARDS - s.dealerCardCount) s draws
  obtain ⟨h1, h2⟩ := foldl_dealerTakes_counts ((List.range k).map draws) s
  rw [hrun, h1, h2]
  simp only [List.length_map, List.length_range]
  rcases hk with hk | hk
  · subst hk; exact ⟨trivial, by omega⟩
  · exact ⟨trivial, hk⟩

theorem playerHit_cases (s : State) (draws : Nat → Card) :
    playerHit s draws = s
    ∨ (s.playerCardCount < MAX_CARDS
        ∧ (playerHit s draws = playerTakes s (draws 0)
          ∨ playerHit s draws = playerBust (playerTakes s (draws 0)))) := by
  unfold playerHit
  by_cases h1 : (!s.playerTurn || s.gameOver) = true
  · rw [if_pos h1]; exact Or.inl rfl
  · rw [if_neg h1]
    by_cases h2 : s.playerCardCount ≥ MAX_CARDS
    · rw [if_pos h2]; exact Or.inl rfl
    · rw [if_neg h2]
      refine Or.inr ⟨by omega, ?_⟩
      by_cases h3 : getScore (playerTakes s (draws 0)).playerHand.1
          (playerTakes s (draws 0)).playerCardCount > 21
      · rw [if_pos h3]; exact Or.inr rfl
      · rw [if_neg h3]; exact Or.inl rfl

theorem playerStand_cases (s : State) (draws : Nat → Card) :
    playerStand s draws = s
    ∨ ∃ k : Nat, (k = 0 ∨ s.dealerCardCount + k ≤ MAX_CARDS)
        ∧ playerStand s draws
          = evaluateResult
              (((List.range k).map draws).foldl dealerTakes { s with playerTurn := false }) := by
  unfold playerStand
  by_cases h1 : (!s.playerTurn || s.gameOver) = true
  · rw [if_pos h1]; exact Or.inl rfl
  · rw [if_neg h1]
    obtain ⟨k, hk, hrun⟩ := dealerLoop_writes (MAX_CARDS - s.dealerCardCount)
      { s with playerTurn := false } draws
    refine Or.inr ⟨k, hk, ?_⟩
    unfold dealerTurn dealerPlay
    rw [← hrun]

theorem step_counts (s : State) (cmd : Command) (draws : Nat → Card)
    (hp : s.playerCardCount ≤ MAX_CARDS) (hd : s.dealerCardCount ≤ MAX_CARDS) :
    (step s cmd draws).playerCardCount ≤ MAX_CARDS
    ∧ (step s cmd draws).dealerCardCount ≤ MAX_CARDS := by
  cases cmd with
  | Deal =>
    rw [step_deal]
    rcases startGame_counts s draws with h | ⟨h1, h2, _, _⟩
    · rw [h]; exact ⟨hp, hd⟩
    · rw [h1, h2]; exact ⟨by decide, by decide⟩
  | RaiseBet =>
    rw [step_raiseBet, (specialKeyPress_counts s _).1, (specialKeyPress_counts s _).2]
    exact ⟨hp, hd⟩
  | LowerBet =>
    rw [step_lowerBet, (specialKeyPress_counts s _).1, (specialKeyPress_counts s _).2]
    exact ⟨hp, hd⟩
  | Continue =>
    rw [step_continue]
    by_cases h : s.gameOver = true
    · rw [if_pos h, (continueRound_counts s).1, (continueRound_counts s).2]; exact ⟨hp, hd⟩
    · rw [if_neg h]; exact ⟨hp, hd⟩
  | Hit =>
    rw [step_hit]
    rcases playerHit_cases s draws with h | ⟨hlt, h | h⟩
    · rw [h]; exact ⟨hp, hd⟩
    · rw [h]; simp only [playerTakes]; exact ⟨by omega, hd⟩
    · obtain ⟨_, _, f3, _, f5, _⟩ := playerBust_frame (playerTakes s (draws 0))
      rw [h, f3, f5]; simp only [playerTakes]; exact ⟨by omega, hd⟩
  | Stand =>
    rw [step_stand]
    unfold playerStand
    by_cases h1 : (!s.playerTurn || s.gameOver) = true
    · rw [if_pos h1]; exact ⟨hp, hd⟩
    · rw [if_neg h1]
      unfold dealerTurn
      obtain ⟨c1, c2⟩ := dealerPlay_counts { s with playerTurn := false } draws hd
      rw [(evaluateResult_counts _).1, (evaluateResult_counts _).2, c1]
      exact ⟨hp, c2⟩

theorem reachable_counts (s : State) (hs : Reachable s) :
    s.playerCardCount ≤ MAX_CARDS ∧ s.dealerCardCount ≤ MAX_CARDS := by
  induction hs with
  | start file => exact ⟨Nat.zero_le _, Nat.zero_le _⟩
  | next cmd draws _ _ ih => exact step_counts _ cmd draws ih.1 ih.2

/-- Claim C15.  In every reachable state both hand counts are at most
`MAX_CARDS` (they are natural numbers, so at least 0), and every write
`hand[count++] = drawCard()` that a command performs has its index inside the
array: Hit either changes nothing or writes at `playerCardCount < MAX_CARDS`;
Stand either changes nothing or writes the first `k` drawn cards at the indices
`dealerCardCount`, ..., `dealerCardCount + k - 1`, all below `MAX_CARDS`; Deal
either changes nothing or writes at the indices 0 and 1 of both arrays. -/
theorem card_counts_in_bounds (s : State) (hs : Reachable s) :
    s.playerCardCount ≤ MAX_CARDS ∧ s.dealerCardCount ≤ MAX_CARDS
    ∧ (∀ draws : Nat → Card,
        step s .Hit draws = s
        ∨ (s.playerCardCount < MAX_CARDS
            ∧ (step s .Hit draws = playerTakes s (draws 0)
              ∨ step s .Hit draws = playerBust (playerTakes s (draws 0)))))
    ∧ (∀ draws : Nat → Card,
        step s .Stand draws = s
        ∨ ∃ k : Nat, s.dealerCardCount + k ≤ MAX_CARDS
            ∧ step s .Stand draws
              = evaluateResult
                  (((List.range k).map draws).foldl dealerTakes { s with playerTurn := false }))
    ∧ (∀ draws : Nat → Card,
        step s .Deal draws = s
        ∨ ((step s .Deal draws).playerCardCount = 2 ∧ (step s .Deal draws).dealerCardCount = 2
            ∧ (step s .Deal draws).playerHand
                = (s.playerHand.store 0 (draws 0)).store 1 (draws 1)
            ∧ (step s .Deal draws).dealerHand
                = (s.dealerHand.store 0 (draws 2)).store 1 (draws 3))) := by
  obtain ⟨hp, hd⟩ := reachable_counts s hs
  refine ⟨hp, hd, fun draws => ?_, fun draws => ?_, fun draws => ?_⟩
  · rw [step_hit]; exact playerHit_cases s draws
  · rw [step_stand]
    rcases playerStand_cases s draws with h | ⟨k, hk, h⟩
    · exact Or.inl h
    · refine Or.inr ⟨k, ?_, h⟩
      rcases hk with hk | hk
      · subst hk; exact hd
      · exact hk
  · rw [step_deal]; exact startGame_counts s draws

/-- Claim C15, witness.  Twelve Aces fill the player's array (count 12, score
12) in a reachable state; a further Hit is ignored. -/
theorem card_counts_in_bounds_witness :
    Reachable twelveAces
    ∧ twelveAces.playerCardCount = 12
    ∧ getScore twelveAces.playerHand.1 twelveAces.playerCardCount = 12
    ∧ step twelveAces .Hit (drawsOf [diamond 1]) = twelveAces
    ∧ twelveAces.playerCardCount ≤ MAX_CARDS
    ∧ twelveAces.dealerCardCount ≤ MAX_CARDS :=
  ⟨reachable_run _ _ (Reachable.start none) (by decide), by decide, by decide, by decide,
   (card_counts_in_bounds twelveAces
      (reachable_run _ _ (Reachable.start none) (by decide))).1,
   (card_counts_in_bounds twelveAces
      (reachable_run _ _ (Reachable.start none) (by decide))).2.1⟩

/-! ## Bankruptcy (C16) -/

theorem settleBet_bankrupt (s : State) : (settleBet s).bankrupt = s.bankrupt := by
  unfold settleBet; split_ifs <;> rfl

theorem specialKeyPress_flags (s : State) (key : Int) :
    (specialKeyPress s key).bankrupt = s.bankrupt
    ∧ (specialKeyPress s key).gameOver = s.gameOver
    ∧ (specialKeyPress s key).playerMoney = s.playerMoney := by
  unfold specialKeyPress; split_ifs <;> exact ⟨rfl, rfl, rfl⟩

theorem foldl_dealerTakes_frame (cs : List Card) (s : State) :
    (cs.foldl dealerTakes s).bankrupt = s.bankrupt
    ∧ (cs.foldl dealerTakes s).playerMoney = s.playerMoney
    ∧ (cs.foldl dealerTakes s).currentBet = s.currentBet
    ∧ (cs.foldl dealerTakes s).playerHand = s.playerHand
    ∧ (cs.foldl dealerTakes s).playerCardCount = s.playerCardCount
    ∧ (cs.foldl dealerTakes s).betConfirmed = s.betConfirmed := by
  induction cs generalizing s with
  | nil => exact ⟨rfl, rfl, rfl, rfl, rfl, rfl⟩
  | cons c cs ih => exact ih (dealerTakes s c)

theorem dealerPlay_frame (s : State) (draws : Nat → Card) :
    (dealerPlay s draws).bankrupt = s.bankrupt
    ∧ (dealerPlay s draws).playerMoney = s.playerMoney
    ∧ (dealerPlay s draws).currentBet = s.currentBet
    ∧ (dealerPlay s draws).playerHand = s.playerHand
    ∧ (dealerPlay s draws).playerCardCount = s.playerCardCount
    ∧ (dealerPlay s draws).betConfirmed = s.betConfirmed := by
  unfold dealerPlay
  obtain ⟨k, _, hrun⟩ := dealerLoop_writes (MAX_CARDS - s.dealerCardCount) s draws
  rw [hrun]
  exact foldl_dealerTakes_frame _ s

/-- In a reachable state with the bankrupt flag set the round is over and the
bankroll is 0. -/
theorem reachable_bankrupt_broke (s : State) (hs : Reachable s) (hflag : s.bankrupt = true) :
    s.gameOver = true ∧ s.playerMoney = 0 := by
  induction hs with
  | start file => simp [main] at hflag
  | next cmd draws hprev hvalid ih =>
    rename_i t
    cases cmd with
    | Deal =>
      rw [step_deal] at hflag ⊢
      rcases startGame_cases t draws with h | ⟨_, h2, _⟩
      · rw [h] at hflag ⊢; exact ih hflag
      · rw [h2] at hflag; exact absurd hflag (by decide)
    | RaiseBet =>
      obtain ⟨f1, f2, f3⟩ := specialKeyPress_flags t GLUT_KEY_UP
      rw [step_raiseBet] at hflag ⊢
      rw [f1] at hflag; rw [f2, f3]; exact ih hflag
    | LowerBet =>
      obtain ⟨f1, f2, f3⟩ := specialKeyPress_flags t GLUT_KEY_DOWN
      rw [step_lowerBet] at hflag ⊢
      rw [f1] at hflag; rw [f2, f3]; exact ih hflag
    | Hit =>
      rw [step_hit] at hflag ⊢
      unfold playerHit at hflag ⊢
      by_cases h1 : (!t.playerTurn || t.gameOver) = true
      · rw [if_pos h1] at hflag ⊢; exact ih hflag
      · rw [if_neg h1] at hflag ⊢
        by_cases h2 : t.playerCardCount ≥ MAX_CARDS
        · rw [if_pos h2] at hflag ⊢; exact ih hflag
        · rw [if_neg h2] at hflag ⊢
          have hopen : t.gameOver = false := by
            cases hg : t.gameOver
            · rfl
            · simp [hg] at h1
          have hsolvent : t.bankrupt = false := by
            cases hb : t.bankrupt
            · rfl
            · rw [(ih hb).1] at hopen; exact absurd hopen (by decide)
          by_cases h3 : getScore (playerTakes t (draws 0)).playerHand.1
              (playerTakes t (draws 0)).playerCardCount > 21
          · rw [if_pos h3] at hflag ⊢
            refine ⟨playerBust_gameOver _, ?_⟩
            rw [playerBust_bankrupt] at hflag
            rw [playerBust_playerMoney]
            by_cases h4 : wrapInt ((playerTakes t (draws 0)).playerMoney
                - (playerTakes t (draws 0)).currentBet) ≤ 0
            · rw [if_pos h4]
            · rw [if_neg h4] at hflag
              have : (playerTakes t (draws 0)).bankrupt = false := hsolvent
              rw [this] at hflag; exact absurd hflag (by decide)
          · rw [if_neg h3] at hflag
            have : (playerTakes t (draws 0)).bankrupt = false := hsolvent
            rw [this] at hflag; exact absurd hflag (by decide)
    | Stand =>
      rw [step_stand] at hflag ⊢
      unfold playerStand at hflag ⊢
      by_cases h1 : (!t.playerTurn || t.gameOver) = true
      · rw [if_pos h1] at hflag ⊢; exact ih hflag
      · rw [if_neg h1] at hflag ⊢
        have hopen : t.gameOver = false := by
          cases hg : t.gameOver
          · rfl
          · simp [hg] at h1
        have hsolvent : t.bankrupt = false := by
          cases hb : t.bankrupt
          · rfl
          · rw [(ih hb).1] at hopen; exact absurd hopen (by decide)
        unfold dealerTurn at hflag ⊢
        refine ⟨evaluateResult_gameOver _, ?_⟩
        rw [evaluateResult_bankrupt, checkBankrupt_bankrupt] at hflag
        rw [evaluateResult_playerMoney, checkBankrupt_playerMoney]
        by_cases h4 : (settleBet (dealerPlay { t with playerTurn := false } draws)).playerMoney ≤ 0
        · rw [if_pos h4]
        · rw [if_neg h4, settleBet_bankrupt,
            (dealerPlay_frame { t with playerTurn := false } draws).1] at hflag
          have : ({ t with playerTurn := false } : State).bankrupt = false := hsolvent
          rw [this] at hflag; exact absurd hflag (by decide)
    | Continue =>
      rw [step_continue] at hflag ⊢
      by_cases h : t.gameOver = true
      · rw [if_pos h, continueRound_bankrupt] at hflag; exact absurd hflag (by decide)
      · rw [if_neg h] at hflag ⊢; exact ih hflag

/-- Claim C16.  In every reachable state with the bankrupt flag set the bankroll
is 0, every command other than Continue (Deal, RaiseBet, LowerBet, Hit,
Stand, with any drawn cards) leaves the flag set and the bankroll at 0, and
Continue clears the flag. -/
theorem bankruptcy_sticky (s : State) (hs : Reachable s) (hflag : s.bankrupt = true)
    (cmd : Command) (draws : Nat → Card) :
    s.playerMoney = 0
    ∧ (cmd ≠ .Continue →
        (step s cmd draws).bankrupt = true ∧ (step s cmd draws).playerMoney = 0)
    ∧ (step s .Continue draws).bankrupt = false := by
  obtain ⟨hover, hbroke⟩ := reachable_bankrupt_broke s hs hflag
  refine ⟨hbroke, fun hcmd => ?_, ?_⟩
  · cases cmd with
    | Continue => exact absurd rfl hcmd
    | Deal =>
      rw [step_deal, startGame_refused s draws (Or.inr (Or.inr hflag))]
      exact ⟨hflag, hbroke⟩
    | RaiseBet =>
      obtain ⟨f1, _, f3⟩ := specialKeyPress_flags s GLUT_KEY_UP
      rw [step_raiseBet, f1, f3]; exact ⟨hflag, hbroke⟩
    | LowerBet =>
      obtain ⟨f1, _, f3⟩ := specialKeyPress_flags s GLUT_KEY_DOWN
      rw [step_lowerBet, f1, f3]; exact ⟨hflag, hbroke⟩
    | Hit =>
      have : step s .Hit draws = s := by
        rw [step_hit]; unfold playerHit; simp [hover]
      rw [this]; exact ⟨hflag, hbroke⟩
    | Stand =>
      have : step s .Stand draws = s := by
        rw [step_stand]; unfold playerStand; simp [hover]
      rw [this]; exact ⟨hflag, hbroke⟩
  · rw [step_continue, if_pos hover, continueRound_bankrupt]

/-- Claim C16, witness.  After the bankrupting bust `bustWithAllIn`, Deal leaves
the flag set and the bankroll at 0; Continue clears the flag. -/
theorem bankruptcy_sticky_witness :
    Reachable bustWithAllIn
    ∧ bustWithAllIn.bankrupt = true
    ∧ bustWithAllIn.playerMoney = 0
    ∧ (step bustWithAllIn .Deal (drawsOf [])).bankrupt = true
    ∧ (step bustWithAllIn .Deal (drawsOf [])).playerMoney = 0
    ∧ (step bustWithAllIn .Continue (drawsOf [])).bankrupt = false :=
  ⟨reachable_run _ _ reachable_allInDealt (by decide),
   by set_option maxRecDepth 100000 in decide,
   (bankruptcy_sticky bustWithAllIn (reachable_run _ _ reachable_allInDealt (by decide))
      (by set_option maxRecDepth 100000 in decide) .Deal (drawsOf [])).1,
   ((bankruptcy_sticky bustWithAllIn (reachable_run _ _ reachable_allInDealt (by decide))
      (by set_option maxRecDepth 100000 in decide) .Deal (drawsOf [])).2.1 (by decide)).1,
   ((bankruptcy_sticky bustWithAllIn (reachable_run _ _ reachable_allInDealt (by decide))
      (by set_option maxRecDepth 100000 in decide) .Deal (drawsOf [])).2.1 (by decide)).2,
   (bankruptcy_sticky bustWithAllIn (reachable_run _ _ reachable_allInDealt (by decide))
      (by set_option maxRecDepth 100000 in decide) .Deal (drawsOf [])).2.2⟩

/-! ## The high score and the bankroll (C11) -/

theorem updateHighScore_covers (s : State) :
    (updateHighScore s).playerMoney ≤ (updateHighScore s).highestMoney := by
  unfold updateHighScore
  by_cases h : s.playerMoney > s.highestMoney
  · rw [if_pos h]
  · rw [if_neg h]; omega

theorem continueRound_playerMoney (s : State) :
    (continueRound s).playerMoney = if s.bankrupt then 1000 else s.playerMoney := by
  unfold continueRound
  cases h : s.bankrupt <;> simp [h]

theorem continueRound_highestMoney (s : State) :
    (continueRound s).highestMoney = s.highestMoney := by
  unfold continueRound
  cases h : s.bankrupt <;> simp [h]

theorem startGame_playerMoney (s : State) (draws : Nat → Card) :
    (startGame s draws).playerMoney = s.playerMoney
    ∧ (startGame s draws).highestMoney = s.highestMoney := by
  unfold startGame; split_ifs <;> exact ⟨rfl, rfl⟩

theorem specialKeyPress_highestMoney (s : State) (key : Int) :
    (specialKeyPress s key).highestMoney = s.highestMoney := by
  unfold specialKeyPress; split_ifs <;> rfl

/-- A command keeps the bankroll at or below the high score once the high score
is at least the starting stake. -/
theorem step_bankroll_le_highScore (s : State) (cmd : Command) (draws : Nat → Card)
    (hstake : 1000 ≤ s.highestMoney) (hle : s.playerMoney ≤ s.highestMoney) :
    1000 ≤ (step s cmd draws).highestMoney
    ∧ (step s cmd draws).playerMoney ≤ (step s cmd draws).highestMoney := by
  have hmono := (step_highScoreStore s cmd draws).1
  refine ⟨by omega, ?_⟩
  cases cmd with
  | Deal =>
    rw [step_deal, (startGame_playerMoney s draws).1, (startGame_playerMoney s draws).2]
    exact hle
  | RaiseBet =>
    rw [step_raiseBet, specialKeyPress_playerMoney, specialKeyPress_highestMoney]; exact hle
  | LowerBet =>
    rw [step_lowerBet, specialKeyPress_playerMoney, specialKeyPress_highestMoney]; exact hle
  | Continue =>
    rw [step_continue]
    by_cases h : s.gameOver = true
    · rw [if_pos h, continueRound_playerMoney, continueRound_highestMoney]
      cases hb : s.bankrupt
      · simpa using hle
      · simpa using hstake
    · rw [if_neg h]; exact hle
  | Hit =>
    rw [step_hit]
    rcases playerHit_cases s draws with h | ⟨_, h | h⟩
    · rw [h]; exact hle
    · rw [h]; exact hle
    · rw [h]; unfold playerBust; exact updateHighScore_covers _
  | Stand =>
    rw [step_stand]
    unfold playerStand
    by_cases h1 : (!s.playerTurn || s.gameOver) = true
    · rw [if_pos h1]; exact hle
    · rw [if_neg h1]; unfold dealerTurn evaluateResult; exact updateHighScore_covers _

/-- Claim C11, counterexample.  A session that loads the persisted value 500
starts with bankroll 1000 and high score 500: the high score is below the
bankroll in the start state. -/
theorem highScore_below_bankroll_at_start :
    ReachableFrom (main (some 500)) (main (some 500))
    ∧ Reachable (main (some 500))
    ∧ (main (some 500)).playerMoney = 1000
    ∧ (main (some 500)).highestMoney = 500
    ∧ ¬ ((main (some 500)).highestMoney ≥ (main (some 500)).playerMoney) :=
  ⟨ReachableFrom.start, Reachable.start (some 500), by decide, by decide, by decide⟩

/-- Claim C11, amended.  In every state reachable from a session start whose
loaded high score is at least 1000 (the persisted value, or 1000 when none is
readable), the high score is at least the current bankroll (and at least
1000). -/
theorem highScore_covers_bankroll (file : Option Int) (hfile : 1000 ≤ file.getD 1000)
    (s : State) (hs : ReachableFrom (main file) s) :
    s.highestMoney ≥ s.playerMoney ∧ s.highestMoney ≥ 1000 := by
  have inv : 1000 ≤ s.highestMoney ∧ s.playerMoney ≤ s.highestMoney := by
    induction hs with
    | start => exact ⟨hfile, hfile⟩
    | next cmd draws _ _ ih => exact step_bankroll_le_highScore _ cmd draws ih.1 ih.2
  exact ⟨inv.2, inv.1⟩

/-- Claim C11, witness.  A session without a file in which a round is won: the
bankroll is 1100 and the high score covers it. -/
theorem highScore_covers_bankroll_witness :
    (1000 : Int) ≤ (none : Option Int).getD 1000
    ∧ (step dealtNineteen .Stand (drawsOf [])).playerMoney = 1100
    ∧ (step dealtNineteen .Stand (drawsOf [])).highestMoney
        ≥ (step dealtNineteen .Stand (drawsOf [])).playerMoney :=
  ⟨by decide, by decide,
   (highScore_covers_bankroll none (by decide) (step dealtNineteen .Stand (drawsOf []))
      (ReachableFrom.next .Stand (drawsOf [])
        (ReachableFrom.next .Deal (drawsOf [diamond 10, diamond 9, diamond 10, diamond 8])
          ReachableFrom.start (drawsOf_valid _ (by decide)))
        (drawsOf_valid _ (by decide)))).1⟩

/-- Every persisted value that a session started without a file (or with a value
of at least 1000) leaves behind is itself at least 1000. -/
theorem persisted_value_covers_stake (file : Option Int) (hfile : 1000 ≤ file.getD 1000)
    (s : State) (hs : ReachableFrom (main file) s) :
    1000 ≤ s.highscoreFile.getD 1000 ∧ s.highscoreFile.getD 1000 = s.highestMoney := by
  have inv : s.highscoreFile.getD 1000 = s.highestMoney ∧ 1000 ≤ s.highestMoney := by
    induction hs with
    | start => exact ⟨rfl, hfile⟩
    | next cmd draws hprev hvalid ih =>
      rename_i t
      obtain ⟨h1, _, h3⟩ := step_highScoreStore t cmd draws
      refine ⟨?_, by omega⟩
      rw [h3]
      by_cases hlt : t.highestMoney < (step t cmd draws).highestMoney
      · rw [if_pos hlt]; rfl
      · rw [if_neg hlt, ih.1]; omega
  exact ⟨by omega, inv.1⟩

/-- A session without a file in which a round is won leaves 1100 in the file. -/
theorem persisted_value_covers_stake_witness :
    (1000 : Int) ≤ (none : Option Int).getD 1000
    ∧ (step dealtNineteen .Stand (drawsOf [])).highscoreFile = some 1100
    ∧ 1000 ≤ (step dealtNineteen .Stand (drawsOf [])).highscoreFile.getD 1000 :=
  ⟨by decide, by decide,
   (persisted_value_covers_stake none (by decide) (step dealtNineteen .Stand (drawsOf []))
      (ReachableFrom.next .Stand (drawsOf [])
        (ReachableFrom.next .Deal (drawsOf [diamond 10, diamond 9, diamond 10, diamond 8])
          ReachableFrom.start (drawsOf_valid _ (by decide)))
        (drawsOf_valid _ (by decide)))).1⟩

/-! ## Bet and bankroll during a round (C17) -/

theorem settleBet_hands (s : State) :
    (settleBet s).playerHand = s.playerHand
    ∧ (settleBet s).dealerHand = s.dealerHand := by
  unfold settleBet; split_ifs <;> exact ⟨rfl, rfl⟩

theorem checkBankrupt_hands (s : State) :
    (checkBankrupt s).playerHand = s.playerHand
    ∧ (checkBankrupt s).dealerHand = s.dealerHand := by
  unfold checkBankrupt; split_ifs <;> exact ⟨rfl, rfl⟩

theorem evaluateResult_hands (s : State) :
    (evaluateResult s).playerHand = s.playerHand
    ∧ (evaluateResult s).dealerHand = s.dealerHand := by
  unfold evaluateResult
  rw [updateHighScore_playerHand, updateHighScore_dealerHand]
  exact ⟨(checkBankrupt_hands _).1.trans (settleBet_hands s).1,
    (checkBankrupt_hands _).2.trans (settleBet_hands s).2⟩

theorem settleBet_currentBet (s : State) : (settleBet s).currentBet = s.currentBet := by
  unfold settleBet; split_ifs <;> rfl

/-- While a round that began with a successful Deal is in progress, the player
is to act, the bankrupt flag is clear, and the bet and the bankroll are those
of the Deal. -/
theorem inRound_open (s0 : State) (draws0 : Nat → Card)
    (hwait : s0.betConfirmed = false) (hafford : s0.currentBet ≤ s0.playerMoney)
    (hflag : s0.bankrupt = false)
    (s : State) (hround : InRound (step s0 .Deal draws0) s) (hopen : s.gameOver = false) :
    s.playerTurn = true ∧ s.bankrupt = false ∧ s.betConfirmed = true
    ∧ s.currentBet = s0.currentBet ∧ s.playerMoney = s0.playerMoney := by
  induction hround with
  | dealt =>
    rw [step_deal, startGame_dealt s0 draws0 hwait hafford hflag]
    exact ⟨rfl, hflag, rfl, rfl, rfl⟩
  | hit draws hprev ih =>
    rename_i t
    rw [step_hit] at hopen ⊢
    rcases playerHit_cases t draws with h | ⟨_, h | h⟩
    · rw [h] at hopen ⊢; exact ih hopen
    · rw [h] at hopen ⊢; exact ih hopen
    · rw [h, playerBust_gameOver] at hopen; exact absurd hopen (by decide)
  | stand draws hprev ih =>
    rename_i t
    rw [step_stand] at hopen ⊢
    rcases playerStand_cases t draws with h | ⟨k, _, h⟩
    · rw [h] at hopen ⊢; exact ih hopen
    · rw [h, evaluateResult_gameOver] at hopen; exact absurd hopen (by decide)

/-- Claim C17.  Take a state that awaits a bet with `10 <= bet <= bankroll`, the
bankrupt flag clear and `bankroll + bet` an `int` (the initial state is one),
a successful Deal from it, and then Hit and Stand commands only, with any
drawn cards.  In every state so reached in which the round is still in
progress, `10 <= bet <= bankroll`.  A Hit that ends the round (a bust) sets
the bankroll to exactly `bankroll - bet >= 0`, and sets the bankrupt flag (the
clamp-to-zero branch) exactly when `bankroll - bet = 0`.  Stand ends the round
with bankroll + bet (win), the bankroll (push) or exactly `bankroll - bet >= 0`
(loss), and sets the flag exactly when the result is the loss and
`bankroll - bet = 0`. -/
theorem round_bet_within_bankroll (s0 : State) (draws0 : Nat → Card)
    (hwait : roundState s0 = .AwaitingBet) (hmin : 10 ≤ s0.currentBet)
    (hafford : s0.currentBet ≤ s0.playerMoney) (hflag : s0.bankrupt = false)
    (hrange : s0.playerMoney + s0.currentBet ≤ INT_MAX)
    (s : State) (hround : InRound (step s0 .Deal draws0) s) (hopen : s.gameOver = false) :
    (10 ≤ s.currentBet ∧ s.currentBet ≤ s.playerMoney)
    ∧ (∀ draws : Nat → Card, (step s .Hit draws).gameOver = true →
        (step s .Hit draws).playerMoney = s.playerMoney - s.currentBet
        ∧ 0 ≤ s.playerMoney - s.currentBet
        ∧ ((step s .Hit draws).bankrupt = true ↔ s.playerMoney - s.currentBet = 0))
    ∧ (∀ draws : Nat → Card,
        (step s .Stand draws).gameOver = true
        ∧ (step s .Stand draws).playerMoney =
            (if getScore (step s .Stand draws).dealerHand.1 (step s .Stand draws).dealerCardCount
                  > 21
                ∨ getScore (step s .Stand draws).playerHand.1
                    (step s .Stand draws).playerCardCount
                  > getScore (step s .Stand draws).dealerHand.1
                    (step s .Stand draws).dealerCardCount then
              s.playerMoney + s.currentBet
            else if getScore (step s .Stand draws).dealerHand.1
                    (step s .Stand draws).dealerCardCount
                  = getScore (step s .Stand draws).playerHand.1
                    (step s .Stand draws).playerCardCount then
              s.playerMoney
            else s.playerMoney - s.currentBet)
        ∧ 0 ≤ s.playerMoney - s.currentBet
        ∧ ((step s .Stand draws).bankrupt = true ↔
            ((step s .Stand draws).playerMoney = s.playerMoney - s.currentBet
              ∧ s.playerMoney - s.currentBet = 0))) := by
  have hbc := (roundState_awaitingBet_iff s0).1 hwait
  obtain ⟨hturn, hsolvent, _, hbet, hmoney⟩ :=
    inRound_open s0 draws0 hbc hafford hflag s hround hopen
  have hsub : wrapInt (s.playerMoney - s.currentBet) = s.playerMoney - s.currentBet :=
    wrapInt_eq_self _ ⟨by unfold INT_MIN; omega, by unfold INT_MAX at hrange ⊢; omega⟩
  have hadd : wrapInt (s.playerMoney + s.currentBet) = s.playerMoney + s.currentBet :=
    wrapInt_eq_self _ ⟨by unfold INT_MIN; omega, by omega⟩
  refine ⟨⟨by omega, by omega⟩, fun draws hend => ?_, fun draws => ?_⟩
  · rw [step_hit] at hend ⊢
    rcases playerHit_cases s draws with h | ⟨_, h | h⟩
    · rw [h, hopen] at hend; exact absurd hend (by decide)
    · rw [h] at hend
      have : (playerTakes s (draws 0)).gameOver = false := hopen
      rw [this] at hend; exact absurd hend (by decide)
    · rw [h, playerBust_playerMoney, playerBust_bankrupt]
      have e1 : (playerTakes s (draws 0)).playerMoney = s.playerMoney := rfl
      have e2 : (playerTakes s (draws 0)).currentBet = s.currentBet := rfl
      have e3 : (playerTakes s (draws 0)).bankrupt = s.bankrupt := rfl
      rw [e1, e2, e3, hsub, hsolvent]
      by_cases hz : s.playerMoney - s.currentBet ≤ 0
      · rw [if_pos hz, if_pos hz]
        exact ⟨by omega, by omega, fun _ => by omega, fun _ => rfl⟩
      · rw [if_neg hz, if_neg hz]
        exact ⟨rfl, by omega, fun hf => absurd hf (by decide), fun h0 => absurd h0 (by omega)⟩
  · have hguard : ¬ ((!s.playerTurn || s.gameOver) = true) := by simp [hturn, hopen]
    have hstand : step s .Stand draws
        = evaluateResult (dealerPlay { s with playerTurn := false } draws) := by
      rw [step_stand]; unfold playerStand; rw [if_neg hguard]; rfl
    obtain ⟨f1, f2, f3, _, _, _⟩ := dealerPlay_frame { s with playerTurn := false } draws
    have g1 : (dealerPlay { s with playerTurn := false } draws).playerMoney = s.playerMoney := f2
    have g2 : (dealerPlay { s with playerTurn := false } draws).currentBet = s.currentBet := f3
    have g3 : (dealerPlay { s with playerTurn := false } draws).bankrupt = false :=
      f1.trans hsolvent
    rw [hstand, evaluateResult_gameOver, evaluateResult_playerMoney, evaluateResult_bankrupt,
      (evaluateResult_hands _).1, (evaluateResult_hands _).2, (evaluateResult_counts _).1,
      (evaluateResult_counts _).2, checkBankrupt_playerMoney, checkBankrupt_bankrupt,
      settleBet_bankrupt, settleBet_playerMoney, g1, g2, g3, hadd, hsub]
    refine ⟨rfl, ?_, by omega, ?_⟩
    · split_ifs <;> omega
    · split_ifs <;> simp <;> omega

/-- Claim C17, witness.  From the initial state (bet 100, bankroll 1000) the
player is dealt 10, 5 against 10, 8: a bust on a King and a Stand on 15
against 18 both leave exactly 900. -/
theorem round_bet_within_bankroll_witness :
    roundState (main none) = .AwaitingBet
    ∧ (10 : Int) ≤ (main none).currentBet
    ∧ (main none).currentBet ≤ (main none).playerMoney
    ∧ dealtFifteen.gameOver = false
    ∧ (10 ≤ dealtFifteen.currentBet ∧ dealtFifteen.currentBet ≤ dealtFifteen.playerMoney)
    ∧ (step dealtFifteen .Hit (drawsOf [diamond 13])).gameOver = true
    ∧ (step dealtFifteen .Hit (drawsOf [diamond 13])).playerMoney = 900
    ∧ (step dealtFifteen .Stand (drawsOf [])).playerMoney = 900 :=
  ⟨by decide, by decide, by decide, by decide,
   (round_bet_within_bankroll (main none)
      (drawsOf [diamond 10, diamond 5, diamond 10, diamond 8]) (by decide) (by decide)
      (by decide) (by decide) (by decide) dealtFifteen InRound.dealt (by decide)).1,
   by decide,
   ((round_bet_within_bankroll (main none)
      (drawsOf [diamond 10, diamond 5, diamond 10, diamond 8]) (by decide) (by decide)
      (by decide) (by decide) (by decide) dealtFifteen InRound.dealt (by decide)).2.1
      (drawsOf [diamond 13]) (by decide)).1.trans (by decide),
   by decide⟩

end Blackjack
